import Mathlib

/-!
Verification of `cloudinit/user_data/processor.py` (the user-data expansion
engine) against its natural-language specification.

The engine is shallowly embedded: Python `email.message.Message` objects
become the inductive `Message` (a header list plus either a string payload or
a list of sub-messages), the mutable output container and the file-system /
network side effects become explicit state threading (`St`), and the mutual
recursion `_process_msg` / `_do_include` is made total with an explicit fuel
parameter (fuel exhaustion is reported as a distinguished error so that it
can never be confused with a Python-level exception).

External collaborators (`ud.convert_string`, `ud.type_from_starts_with`,
`url_helper.readurl`, `util.load_yaml`, the paths object) are not part of the
source under verification; they are supplied as components of an environment
record `Env`, with their interfaces taken from the specification.
-/

namespace CloudInit

/-! ## Decimal printing and parsing

Python's `str(int)` and `int(str)` are modelled by hand (structurally, so
that everything kernel-evaluates): `decChars` prints a natural number as its
big-endian decimal digit characters, `digitsVal?` parses a digit string.
-/

/-- The decimal digit character for a digit value `d < 10`. -/
def digChar (d : Nat) : Char :=
  if d = 0 then '0' else if d = 1 then '1' else if d = 2 then '2'
  else if d = 3 then '3' else if d = 4 then '4' else if d = 5 then '5'
  else if d = 6 then '6' else if d = 7 then '7' else if d = 8 then '8'
  else '9'

/-- Big-endian decimal digits of `n`, with `fuel` bounding the recursion. -/
def decCharsAux : Nat → Nat → List Char
  | 0, _ => []
  | _ + 1, 0 => []
  | fuel + 1, n => decCharsAux fuel (n / 10) ++ [digChar (n % 10)]

/-- Big-endian decimal digit characters of a natural number (`str(n)`). -/
def decChars (n : Nat) : List Char :=
  if n = 0 then ['0'] else decCharsAux n n

/-- Python `str` of a natural number. -/
def natStr (n : Nat) : String := String.mk (decChars n)

/-- Python `str` of an integer. -/
def intStr (i : Int) : String :=
  if i < 0 then String.mk ('-' :: decChars i.natAbs) else natStr i.toNat

/-- Is `c` a decimal digit character? -/
def isDigitC (c : Char) : Bool := 48 ≤ c.toNat && c.toNat ≤ 57

/-- Numeric value accumulated over a big-endian digit-character list. -/
def interpDigits (a : Nat) (l : List Char) : Nat :=
  l.foldl (fun x c => x * 10 + (c.toNat - 48)) a

/-- Parse a non-empty all-digit character list as a natural number. -/
def digitsVal? (l : List Char) : Option Nat :=
  if l = [] then none
  else if l.all isDigitC then some (interpDigits 0 l) else none

/-- Whitespace characters stripped by Python `int()`/`str.strip()` (space,
tab, newline, carriage return, vertical tab, form feed). -/
def isSpaceC (c : Char) : Bool :=
  c.toNat = 32 || c.toNat = 9 || c.toNat = 10 || c.toNat = 13 ||
  c.toNat = 11 || c.toNat = 12

/-- Strip leading and trailing whitespace from a character list. -/
def stripC (l : List Char) : List Char :=
  ((l.dropWhile isSpaceC).reverse.dropWhile isSpaceC).reverse

/-- Python `int(s)`, returning `none` where Python raises
`ValueError`/`TypeError`: optional sign, then a non-empty digit string. -/
def pyIntCore : List Char → Option Int
  | [] => none
  | c :: rest =>
    if c = '-' then (digitsVal? rest).map (fun n => -(n : Int))
    else if c = '+' then (digitsVal? rest).map (fun n => (n : Int))
    else (digitsVal? (c :: rest)).map (fun n => (n : Int))

def pyInt? (s : String) : Option Int := pyIntCore (stripC s.data)

/-! ## String primitives

Core `String` functions such as `toLower`, `split`, `startsWith` are
position-based loops that the kernel cannot evaluate, so the handful of
Python string operations the engine needs are (re)implemented structurally
over the character list. -/

/-- ASCII lower-casing of one character. -/
def lowerChar (c : Char) : Char :=
  if 'A' ≤ c ∧ c ≤ 'Z' then Char.ofNat (c.toNat + 32) else c

/-- Python `s.lower()`. -/
def lowerS (s : String) : String := String.mk (s.data.map lowerChar)

/-- Python `s.startswith(p)`. -/
def startsWithS (s p : String) : Bool := p.data.isPrefixOf s.data

/-- Python `s[n:]`. -/
def dropS (s : String) (n : Nat) : String := String.mk (s.data.drop n)

/-- Python `s[0:n]`. -/
def takeS (s : String) (n : Nat) : String := String.mk (s.data.take n)

/-- Python `s.lstrip()`. -/
def trimLeftS (s : String) : String := String.mk (s.data.dropWhile isSpaceC)

/-- Python `s.strip()`. -/
def trimS (s : String) : String := String.mk (stripC s.data)

/-- Split a character list at every occurrence of `c` (every piece kept,
including empty ones — the semantics of Python `s.split(c)`). -/
def splitCharC (c : Char) : List Char → List (List Char)
  | [] => [[]]
  | x :: xs =>
    match splitCharC c xs with
    | [] => [[]]
    | h :: t => if x = c then [] :: h :: t else (x :: h) :: t

/-- Split a character list around the first occurrence of `c`, if any
(Python `s.split(c, 1)` when it yields two pieces). -/
def splitAtCharC (c : Char) : List Char → Option (List Char × List Char)
  | [] => none
  | x :: xs =>
    if x = c then some ([], xs)
    else (splitAtCharC c xs).map (fun p => (x :: p.1, p.2))

/-! ## Headers and messages -/

/-- One RFC-2822-style header: a name, a value, and (structurally modelled)
parameters such as the `filename` of a `Content-Disposition` header. -/
structure Header where
  name : String
  value : String
  params : List (String × String)
deriving DecidableEq

/-- A Python `email.message.Message`: headers plus either a string payload
(leaf) or a list of sub-messages (multipart container). -/
inductive Message where
  | leaf : List Header → String → Message
  | container : List Header → List Message → Message

/-- Case-insensitive header-name equality (Python header access). -/
def hdrNameEq (a b : String) : Bool := lowerS a = lowerS b

/-- First header with the given (case-insensitive) name. -/
def findHeader (hs : List Header) (k : String) : Option Header :=
  hs.find? (fun h => hdrNameEq h.name k)

/-- Python `k in msg` on a header list. -/
def hasHeader (hs : List Header) (k : String) : Bool :=
  (findHeader hs k).isSome

/-- Python `msg.replace_header(k, v)` on a header list: the first matching
header keeps its position and name but its whole value is replaced (which in
Python also discards any old parameters). Headers after the first match are
left untouched; if no header matches, the list is unchanged (the engine only
calls this after ensuring presence). -/
def replaceHeader (hs : List Header) (k v : String) : List Header :=
  match hs with
  | [] => []
  | h :: t =>
    if hdrNameEq h.name k then { name := h.name, value := v, params := [] } :: t
    else h :: replaceHeader t k v

/-- The headers of a message. -/
def Message.headers : Message → List Header
  | .leaf hs _ => hs
  | .container hs _ => hs

/-- The sub-messages of a message (empty for a leaf). -/
def Message.children : Message → List Message
  | .leaf _ _ => []
  | .container _ ps => ps

/-- Replace the header list of a message. -/
def Message.withHeaders : Message → List Header → Message
  | .leaf _ b, hs => .leaf hs b
  | .container _ ps, hs => .container hs ps

/-- Append a header (Python `msg[k] = v` / `msg.add_header(k, v, **params)`). -/
def Message.addHeader (m : Message) (k v : String)
    (ps : List (String × String)) : Message :=
  m.withHeaders (m.headers ++ [{ name := k, value := v, params := ps }])

/-- Python `msg.replace_header(k, v)`. -/
def Message.setHeaderVal (m : Message) (k v : String) : Message :=
  m.withHeaders (replaceHeader m.headers k v)

/-- Python `msg.get(k)`: value of the first matching header. -/
def Message.getHeader (m : Message) (k : String) : Option String :=
  (findHeader m.headers k).map Header.value

/-- Python `msg.get_content_type()`: the declared content type, lowercased,
falling back to the default `text/plain` when the header is missing or its
value does not contain exactly one slash. -/
def Message.getContentType (m : Message) : String :=
  match findHeader m.headers "Content-Type" with
  | none => "text/plain"
  | some h =>
    let v := lowerS (trimS h.value)
    if (v.data.filter (fun c => c = '/')).length = 1 then v else "text/plain"

/-- Python `msg.get_content_maintype()`: the part of the content type before
the slash. -/
def Message.getContentMaintype (m : Message) : String :=
  match splitAtCharC '/' m.getContentType.data with
  | some p => String.mk p.1
  | none => m.getContentType

/-- The `name` parameter of the `Content-Type` header, the fallback used by
Python `get_filename`. -/
def lookupParam (ps : List (String × String)) (k : String) : Option String :=
  ((ps.find? (fun p => lowerS p.1 = k)).map (fun p => p.2))

/-- `Content-Type` `name` parameter of a message, if any. -/
def Message.ctNameParam (m : Message) : Option String :=
  match findHeader m.headers "Content-Type" with
  | some h => lookupParam h.params "name"
  | none => none

/-- Python `msg.get_filename()`: the `filename` parameter of the first
`Content-Disposition` header, falling back to the `name` parameter of the
`Content-Type` header. -/
def Message.getFilename (m : Message) : Option String :=
  match findHeader m.headers "Content-Disposition" with
  | some h =>
    match lookupParam h.params "filename" with
    | some v => some v
    | none => m.ctNameParam
  | none => m.ctNameParam

/-- Python `msg.get_payload(decode=True)` as used by the engine on leaf
parts. On a multipart payload Python returns `None`; the engine only ever
passes that value onward behind content types real parsers never put on a
container, so it is modelled as the empty payload. -/
def Message.payloadDecoded : Message → String
  | .leaf _ b => b
  | .container _ _ => ""

/-- Python `outer.attach(part)`: append a sub-message. The engine only ever
calls this on its own multipart container; on a leaf (where Python would
raise) the message is returned unchanged. -/
def Message.attach : Message → Message → Message
  | .container hs ps, p => .container hs (ps ++ [p])
  | .leaf hs b, _ => .leaf hs b

/-! ## Engine constants (`processor.py` module level) -/

def TYPE_NEEDED : List String := ["text/plain", "text/x-not-multipart"]

def INCLUDE_TYPES : List String := ["text/x-include-url", "text/x-include-once-url"]

def ARCHIVE_TYPES : List String := ["text/cloud-config-archive"]

def UNDEF_TYPE : String := "text/plain"

def ARCHIVE_UNDEF_TYPE : String := "text/cloud-config"

def OCTET_TYPE : String := "application/octet-stream"

def ATTACHMENT_FIELD : String := "Number-Attachments"

def MAX_INCLUDE_FN_LEN : Nat := 64

/-! ## External collaborators and state

Everything the engine calls that lives outside `processor.py` is a component
of `Env`; the file system, the log of network fetches performed, and (as
ghost instrumentation, observed by no engine branch) the list of synthesized
filenames form the threaded state `St`. -/

/-- One decoded archive entry: a bare string, a mapping (string keys and
values, in insertion order), or a value of any other shape. -/
inductive AEntry where
  | str : String → AEntry
  | dict : List (String × String) → AEntry
  | other : AEntry
deriving DecidableEq

/-- First value for a key in a decoded mapping (Python `dict` lookup). -/
def lookupKey (kvs : List (String × String)) (k : String) : Option String :=
  (kvs.find? (fun p => p.1 = k)).map (fun p => p.2)

/-- The external collaborators of the engine, with interfaces taken from the
specification: the type sniffer's magic-prefix table, the HTTP fetcher, the
blob parser, the structured-list decoder, the cache-path root, and the
URL-hashing function. -/
structure Env where
  sniffTable : List (String × String)
  fetch : String → String × Int
  okHttp : Int → Bool
  parse : String → Message
  decodeArchive : String → List AEntry
  cacheDir : String
  urlhash : String → String

/-- Modelled from the spec: the external sniffer `ud.type_from_starts_with`
(not under `src/`): it inspects the payload's leading bytes against a table
of known magic prefixes and returns the first matching concrete type, or
nothing. -/
def typeFromStartsWith (env : Env) (payload : String) : Option String :=
  (env.sniffTable.find? (fun pt => startsWithS payload pt.1)).map (fun pt => pt.2)

/-- The modelled file system: a list of (path, content, mode) entries. -/
abbrev FSys := List (String × String × Nat)

/-- Python `os.path.isfile`. -/
def isfile (fs : FSys) (p : String) : Bool := fs.any (fun e => e.1 = p)

/-- Python `util.load_file` (external; total on the modelled store). -/
def loadFile (fs : FSys) (p : String) : String :=
  ((fs.find? (fun e => e.1 = p)).map (fun e => e.2.1)).getD ""

/-- Python `util.write_file` (external): create or overwrite with a mode. -/
def writeFile (fs : FSys) (p c : String) (mode : Nat) : FSys :=
  fs.filter (fun e => ¬ e.1 = p) ++ [(p, c, mode)]

/-- Threaded engine state: file system, the ordered log of URLs passed to
`url_helper.readurl`, and the ghost list of synthesized filenames. -/
structure St where
  fs : FSys
  fetched : List String
  synth : List String
deriving DecidableEq

/-- Engine errors: `fuel` is the modelling artifact for the unbounded
include recursion of the source; `py` records a Python exception escaping
the engine. -/
inductive PErr where
  | fuel : PErr
  | py : String → PErr
deriving DecidableEq

/-- Result monad of the embedded engine. -/
abbrev Res (α : Type) : Type := Except PErr α

/-! ## Engine helpers (the non-recursive methods of `UserDataProcessor`) -/

/-- Modelled from the spec: `ud.PART_FN_TPL` (not under `src/`), the fixed
template for synthesized attachment filenames — a `part-` prefix followed by
the sequence number zero-padded to width three. -/
def partFnChars (i : Int) : List Char :=
  if i < 0 then
    '-' :: (List.replicate (2 - (decChars i.natAbs).length) '0' ++ decChars i.natAbs)
  else
    List.replicate (3 - (decChars i.toNat).length) '0' ++ decChars i.toNat

/-- `ud.PART_FN_TPL % i` (see `partFnChars`). -/
def partFn (i : Int) : String :=
  String.mk ('p' :: 'a' :: 'r' :: 't' :: '-' :: partFnChars i)

/-- `UserDataProcessor._multi_part_count`: ensure the attachment-count header
exists (creating it with value 0), optionally overwrite it with a new count,
then read it back, healing an unparsable value to 0. Returns the updated
container and the fetched count. -/
def multiPartCount (outer : Message) (newCount : Option Int) : Message × Int :=
  let outer :=
    if hasHeader outer.headers ATTACHMENT_FIELD then outer
    else outer.addHeader ATTACHMENT_FIELD (natStr 0) []
  let outer :=
    match newCount with
    | some n => outer.setHeaderVal ATTACHMENT_FIELD (intStr n)
    | none => outer
  match pyInt? ((outer.getHeader ATTACHMENT_FIELD).getD "") with
  | some n => (outer, n)
  | none => (outer.setHeaderVal ATTACHMENT_FIELD (natStr 0), 0)

/-- `UserDataProcessor._attach_part`: read the current count, synthesize a
filename when the part has none (Python truthiness: a missing or empty
filename), append the part to the container, and store count + 1. -/
def attachPart (outer part : Message) (st : St) : Message × St :=
  let cr := multiPartCount outer none
  let outer := cr.1
  let cur := cr.2
  let ps :=
    if (part.getFilename.getD "") = "" then
      let fn := partFn (cur + 1)
      (part.addHeader "Content-Disposition" "attachment" [("filename", fn)],
       { st with synth := st.synth ++ [fn] })
    else (part, st)
  let outer := outer.attach ps.1
  ((multiPartCount outer (some (cur + 1))).1, ps.2)

/-- `UserDataProcessor._get_include_once_filename`: hash the URL, truncate,
and root the file name under the cache directory. -/
def includeOnceFilename (env : Env) (entry : String) : String :=
  env.cacheDir ++ "/urlcache/" ++ takeS (env.urlhash entry) MAX_INCLUDE_FN_LEN

/-- Python `str.splitlines()` (newline-separated; no trailing empty piece;
the empty string has no lines). -/
def pySplitlines (s : String) : List String :=
  if s = "" then []
  else
    let ps := splitCharC '\n' s.data
    let ps := if ps.getLast? = some [] then ps.dropLast else ps
    ps.map String.mk

/-- Python `mtype.split('/', 1)` unpacked into exactly two names: raises
`ValueError` when the type contains no slash. -/
def splitSlash1 (s : String) : Res (String × String) :=
  match splitAtCharC '/' s.data with
  | none => throw (PErr.py "ValueError: not enough values to unpack")
  | some p => pure (String.mk p.1, String.mk p.2)

/-- Python `MIMEText(content, _subtype=subtype)`: a text leaf with the
standard charset parameter and MIME-Version header. -/
def mimeText (content subtype : String) : Message :=
  .leaf [{ name := "Content-Type", value := "text/" ++ subtype,
           params := [("charset", "us-ascii")] },
         { name := "MIME-Version", value := "1.0", params := [] }] content

/-- Python `MIMEBase(maintype, subtype)` followed by `set_payload(content)`. -/
def mimeBasePayload (maintype subtype content : String) : Message :=
  .leaf [{ name := "Content-Type", value := maintype ++ "/" ++ subtype,
           params := [] },
         { name := "MIME-Version", value := "1.0", params := [] }] content

/-- Python `MIMEMultipart()`: the fresh output container. -/
def mimeMultipart : Message :=
  .container [{ name := "Content-Type", value := "multipart/mixed", params := [] },
              { name := "MIME-Version", value := "1.0", params := [] }] []

/-- The `'Content-Type' in base_msg` replace-or-insert at the end of the
`_process_msg` loop body (applied, per the source, to `base_msg`). -/
def stampContentType (m : Message) (ctype : String) : Message :=
  if hasHeader m.headers "Content-Type" then m.setHeaderVal "Content-Type" ctype
  else m.addHeader "Content-Type" ctype []

/-- The effective content type of an archive entry mapping: the entry's
`type` value when present and truthy, else the sniffed type of its content
with the archive-specific default. -/
def entryMtype (env : Env) (kvs : List (String × String)) : String :=
  let mtype0 := (lookupKey kvs "type").getD ""
  if mtype0 = "" then
    (typeFromStartsWith env ((lookupKey kvs "content").getD "")).getD ARCHIVE_UNDEF_TYPE
  else mtype0

/-- The `for header in ent.keys()` loop body of `_explode_archive`: skip the
three reserved keys, otherwise add the key as a header whose value is — per
the source — the entry's literal `header` field (`ent['header']`), raising
`KeyError` when that field is missing. -/
def extraHeaderStep (kvs : List (String × String)) (m : Message)
    (kv : String × String) : Res Message :=
  if kv.1 = "content" ∨ kv.1 = "filename" ∨ kv.1 = "type" then pure m
  else
    match lookupKey kvs "header" with
    | some hv => pure (m.addHeader kv.1 hv [])
    | none => throw (PErr.py "KeyError: header")

/-- The part built for one archive entry before the extra-header loop: a
`MIMEText` or `MIMEBase` of the entry's content, with an attachment
disposition when the entry has a `filename` field. `ms` is the already-split
main/sub type. -/
def mkArchivePart (kvs : List (String × String)) (ms : String × String) : Message :=
  let content := (lookupKey kvs "content").getD ""
  let msg :=
    if ms.1 = "text" then mimeText content ms.2
    else mimeBasePayload ms.1 ms.2 content
  match lookupKey kvs "filename" with
  | some fn => msg.addHeader "Content-Disposition" "attachment" [("filename", fn)]
  | none => msg

/-- One archive entry of `UserDataProcessor._explode_archive`'s loop: wrap a
bare string as a content-only mapping, skip silently anything that is not a
mapping, split the effective type (a `ValueError` when it has no slash),
build the part, add the extra headers, and attach. -/
def explodeEntry (env : Env) (acc : Message × St) (ent : AEntry) :
    Res (Message × St) :=
  let ent :=
    match ent with
    | .str s => AEntry.dict [("content", s)]
    | e => e
  match ent with
  | .dict kvs => do
    let ms ← splitSlash1 (entryMtype env kvs)
    let msg ← kvs.foldlM (extraHeaderStep kvs) (mkArchivePart kvs ms)
    pure (attachPart acc.1 msg acc.2)
  | _ => pure acc

/-- `UserDataProcessor._explode_archive`: decode (the external decoder is
total, defaulting to an empty list) and fold over the entries. -/
def explodeArchive (env : Env) (archive : String) (append : Message)
    (st : St) : Res (Message × St) :=
  (env.decodeArchive archive).foldlM (explodeEntry env) (append, st)

/-- The tail of one `_do_include` loop iteration, after marker stripping:
skip a blank URL, consult the include-once cache, otherwise fetch (logging
the fetch, persisting a successful include-once fetch with mode `0600` = 384
and degrading a failed fetch to empty content), then re-parse the content
and recursively expand via `recur` (= `_process_msg` on the new message). -/
def includeURL (env : Env) (recur : Message → Message → St → Res (Message × St))
    (includeonce : Bool) (include_url : String) (acc : Message × St) :
    Res (Message × St) :=
  if include_url = "" then pure acc
  else
    let fn := includeOnceFilename env include_url
    let cs :=
      if includeonce && isfile acc.2.fs fn then (loadFile acc.2.fs fn, acc.2)
      else
        let fr := env.fetch include_url
        let st := { acc.2 with fetched := acc.2.fetched ++ [include_url] }
        let st :=
          if includeonce && env.okHttp fr.2 then
            { st with fs := writeFile st.fs fn fr.1 384 }
          else st
        ((if env.okHttp fr.2 then fr.1 else ""), st)
    recur (env.parse cs.1) acc.1 cs.2

/-- One line of `UserDataProcessor._do_include`'s loop: skip bare markers,
recognize and strip the include markers (setting the include-once flag only
for a `#include-once`-marked line), skip comment lines, then run the fetch
tail (`includeURL`) on the stripped URL. -/
def includeLine (env : Env) (recur : Message → Message → St → Res (Message × St))
    (acc : Message × St) (line : String) : Res (Message × St) :=
  if line = "#include" ∨ line = "#include-once" then pure acc
  else
    let li :=
      if startsWithS line "#include-once" then (trimLeftS (dropS line 13), true)
      else if startsWithS line "#include" then (trimLeftS (dropS line 8), false)
      else (line, false)
    if startsWithS li.1 "#" then pure acc
    else includeURL env recur li.2 (trimS li.1) acc

/-- `UserDataProcessor._do_include`: fold the line handler over the payload's
lines. -/
def doInclude (env : Env) (recur : Message → Message → St → Res (Message × St))
    (content : String) (append : Message) (st : St) : Res (Message × St) :=
  (pySplitlines content).foldlM (includeLine env recur) (append, st)

/-- The resolved content type of one walked part: the declared type (default
`text/plain` when empty), replaced by the sniffed type when the declared one
is a generic placeholder and a magic prefix matches. -/
def resolvedCtype (env : Env) (part : Message) : String :=
  let ctype_orig0 := part.getContentType
  let ctype_orig := if ctype_orig0 = "" then UNDEF_TYPE else ctype_orig0
  let sniffed : Option String :=
    if TYPE_NEEDED.contains ctype_orig then typeFromStartsWith env part.payloadDecoded
    else none
  sniffed.getD ctype_orig

/-- The body of the `for part in base_msg.walk()` loop of
`UserDataProcessor._process_msg`, for one walked part. `aliased` records
whether `part` is `base_msg` itself (the head of the walk), in which case
the content-type stamp on `base_msg` lands on the very object being
attached; the accumulator carries `(base_msg, append_msg, state)`. -/
def stepPart (env : Env) (recur : Message → Message → St → Res (Message × St))
    (aliased : Bool) (part : Message) (acc : Message × Message × St) :
    Res (Message × Message × St) :=
  let base := acc.1
  let append := acc.2.1
  let st := acc.2.2
  if part.getContentMaintype = "multipart" then pure acc
  else
    let payload := part.payloadDecoded
    let ctype := resolvedCtype env part
    if INCLUDE_TYPES.contains ctype then do
      let r ← doInclude env recur payload append st
      pure (base, r.1, r.2)
    else if ARCHIVE_TYPES.contains ctype then do
      let r ← explodeArchive env payload append st
      pure (base, r.1, r.2)
    else
      let base' := stampContentType base ctype
      let toAttach := if aliased then base' else part
      let r := attachPart append toAttach st
      pure (base', r.1, r.2)

/-- Selector for `engineF`: run the whole `_process_msg` body, or the walk
loop over a list of pending parts. -/
inductive ECall where
  | pmsg : ECall
  | pwalk : List Message → ECall

/-- The recursive core: `_process_msg` (`ECall.pmsg`) and its walk loop
(`ECall.pwalk parts`). The walk visits `base_msg` itself first (aliased) and
then every descendant in pre-order, exactly as Python's `Message.walk`
generator does; includes re-enter `_process_msg` on the freshly parsed
content. Fuel makes the source's unbounded include recursion total; every
recursive call strictly decreases it. -/
def engineF : Nat → Env → ECall → Message → Message → St →
    Res (Message × Message × St)
  | 0, _, _, _, _, _ => throw PErr.fuel
  | Nat.succ f, env, ECall.pmsg, base, append, st => do
    let recur : Message → Message → St → Res (Message × St) := fun b a s =>
      (engineF f env ECall.pmsg b a s).map (fun r => (r.2.1, r.2.2))
    let acc ← stepPart env recur true base (base, append, st)
    engineF f env (ECall.pwalk base.children) acc.1 acc.2.1 acc.2.2
  | Nat.succ _, _, ECall.pwalk [], base, append, st => pure (base, append, st)
  | Nat.succ f, env, ECall.pwalk (m :: rest), base, append, st => do
    let recur : Message → Message → St → Res (Message × St) := fun b a s =>
      (engineF f env ECall.pmsg b a s).map (fun r => (r.2.1, r.2.2))
    let acc ← stepPart env recur false m (base, append, st)
    let acc ← engineF f env (ECall.pwalk m.children) acc.1 acc.2.1 acc.2.2
    engineF f env (ECall.pwalk rest) acc.1 acc.2.1 acc.2.2

/-- `UserDataProcessor._process_msg`, returning the updated `append_msg` and
state (the mutated `base_msg` is also returned first, as the source mutates
it in place). -/
def processMsg (env : Env) (fuel : Nat) (base append : Message) (st : St) :
    Res (Message × Message × St) :=
  engineF fuel env ECall.pmsg base append st

/-- `UserDataProcessor.process`: parse the blob (external `ud.convert_string`),
create a fresh `MIMEMultipart` container, expand into it, return it. -/
def process (env : Env) (fuel : Nat) (blob : String) (st : St) :
    Res (Message × St) :=
  (engineF fuel env ECall.pmsg (env.parse blob) mimeMultipart st).map
    (fun r => (r.2.1, r.2.2))

/-! ## Observations and invariants -/

/-- Is the message a multipart container (list payload)? -/
def Message.isCont : Message → Bool
  | .container _ _ => true
  | .leaf _ _ => false

/-- Does the message carry a `Content-Disposition` header bearing a
`filename` parameter? -/
def hasCDFilename (m : Message) : Bool :=
  m.headers.any (fun h =>
    hdrNameEq h.name "Content-Disposition" && (lookupParam h.params "filename").isSome)

/-- A well-named attached child: it carries a filename-bearing disposition
header, or it already exposed a filename (`get_filename`) when attached. -/
def childNamed (m : Message) : Bool :=
  hasCDFilename m || m.getFilename.isSome

/-- The attachment-count bookkeeping of a container is accurate: the header
is absent only before the first attach (zero children), and otherwise holds
the decimal rendering of the number of direct children. -/
def countOK (c : Message) : Prop :=
  (c.getHeader ATTACHMENT_FIELD = none ∧ c.children = []) ∨
  c.getHeader ATTACHMENT_FIELD = some (natStr c.children.length)

/-- The ghost list of synthesized filenames is a duplicate-free rendering of
sequence numbers bounded by the attachment count. -/
def synthOK (c : Message) (st : St) : Prop :=
  ∃ ks : List Nat, st.synth = ks.map (fun (k : Nat) => partFn (k : Int)) ∧
    ks.Nodup ∧ ∀ k ∈ ks, k ≤ c.children.length

/-- The engine's running invariant on the output container and state. -/
def Inv (c : Message) (st : St) : Prop :=
  c.isCont = true ∧ countOK c ∧ (∀ m ∈ c.children, childNamed m = true) ∧
  synthOK c st

/-- Did the run end in a Python-level exception (as opposed to success or
fuel exhaustion)? -/
def isPyError {α : Type} : Res α → Bool
  | .error (.py _) => true
  | _ => false

/-- The string contains a slash (so Python's two-name unpacking of
`split('/', 1)` succeeds). -/
def slashOK (s : String) : Prop := '/' ∈ s.data

instance (s : String) : Decidable (slashOK s) :=
  inferInstanceAs (Decidable ('/' ∈ s.data))

/-- A decoded archive entry that cannot make `_explode_archive` raise: any
explicit truthy `type` contains a slash, and when the entry has keys beyond
`content`/`filename`/`type` it also has a `header` key. -/
def entryOK : AEntry → Prop
  | .dict kvs =>
    (∀ t, lookupKey kvs "type" = some t → t ≠ "" → slashOK t) ∧
    ((∃ kv ∈ kvs, ¬(kv.1 = "content" ∨ kv.1 = "filename" ∨ kv.1 = "type")) →
      (lookupKey kvs "header").isSome = true)
  | _ => True

/-! ## Concrete environments for closed instances

`env0` fixes plausible behaviors of all external collaborators: the real
sniffer table, an HTTP fetcher that succeeds on two URLs, a blob parser with
the spec-described bare-string fallback (plus fixed MIME parses for a few
blobs), and a structured-list decoder with fixed decodes for a few archive
payloads. -/

def sniffTable0 : List (String × String) :=
  [("#include-once", "text/x-include-once-url"),
   ("#include", "text/x-include-url"),
   ("#cloud-config-archive", "text/cloud-config-archive"),
   ("#cloud-config", "text/cloud-config"),
   ("#!", "text/x-shellscript")]

def fetch0 : String → String × Int := fun u =>
  if u = "http://good" then ("hello", 200)
  else if u = "http://good2" then ("world", 200)
  else ("", 404)

def okHttp0 : Int → Bool := fun c => decide (200 ≤ c) && decide (c < 300)

def parse0 : String → Message := fun b =>
  if b = "multi-shell" then
    .container [{ name := "Content-Type", value := "multipart/mixed", params := [] }]
      [.leaf [{ name := "Content-Type", value := "text/plain", params := [] }] "#!/bin/sh"]
  else if b = "multi-named" then
    .container [{ name := "Content-Type", value := "multipart/mixed", params := [] }]
      [.leaf [{ name := "Content-Type", value := "text/plain",
                params := [("name", "user.txt")] }] "hi"]
  else if b = "multi-flat3" then
    .container [{ name := "Content-Type", value := "multipart/mixed", params := [] }]
      [.leaf [{ name := "Content-Type", value := "text/plain", params := [] }] "one",
       .leaf [{ name := "Content-Type", value := "text/plain", params := [] }] "two",
       .leaf [{ name := "Content-Type", value := "text/plain", params := [] }] "three"]
  else
    .leaf [{ name := "Content-Type", value := "text/x-not-multipart", params := [] }] b

def decode0 : String → List AEntry := fun s =>
  if s = "#cloud-config-archive bad-type" then [.dict [("type", "noslash")]]
  else if s = "#cloud-config-archive no-header" then
    [.dict [("content", "a"), ("x-foo", "bar")]]
  else if s = "#cloud-config-archive c8" then
    [.str "plain text", .dict [("content", "a"), ("filename", "f.txt")], .other]
  else if s = "#cloud-config-archive extras" then
    [.dict [("content", "a"), ("header", "HV"), ("x-one", "v1"), ("x-two", "v2")]]
  else []

def env0 : Env :=
  { sniffTable := sniffTable0, fetch := fetch0, okHttp := okHttp0,
    parse := parse0, decodeArchive := decode0,
    cacheDir := "/var/lib/cloud/data", urlhash := fun s => "h-" ++ s }

/-- The empty starting state. -/
def st0 : St := { fs := [], fetched := [], synth := [] }

/-- `env0` with a decoder that decodes every archive payload to the empty
entry list (so every decoded entry is trivially well-shaped). -/
def envNoArch : Env :=
  { env0 with decodeArchive := fun _ => [] }

/-! # Theorems

First the arithmetic of the hand-rolled decimal printer and parser, then
structural lemmas about headers and `attachPart`, then the engine induction,
and finally the claim theorems. -/

theorem digChar_toNat {d : Nat} (h : d < 10) : (digChar d).toNat = 48 + d := by
  interval_cases d <;> decide

theorem isDigitC_digChar {d : Nat} (h : d < 10) : isDigitC (digChar d) = true := by
  interval_cases d <;> decide

theorem interpDigits_append (a : Nat) (l1 l2 : List Char) :
    interpDigits a (l1 ++ l2) = interpDigits (interpDigits a l1) l2 := by
  simp [interpDigits, List.foldl_append]

theorem decCharsAux_interp :
    ∀ f n a : Nat, n ≤ f →
      interpDigits a (decCharsAux f n) = a * 10 ^ (decCharsAux f n).length + n := by
  intro f
  induction f with
  | zero =>
    intro n a h
    have h0 : n = 0 := Nat.le_zero.mp h
    subst h0
    simp [decCharsAux, interpDigits]
  | succ f ih =>
    intro n a h
    match n with
    | 0 => simp [decCharsAux, interpDigits]
    | n + 1 =>
      have hd : (n + 1) / 10 ≤ f := by
        have := Nat.div_lt_self (Nat.succ_pos n) (by norm_num : 1 < 10)
        omega
      rw [show decCharsAux (f + 1) (n + 1) =
          decCharsAux f ((n + 1) / 10) ++ [digChar ((n + 1) % 10)] from rfl,
        interpDigits_append, ih _ a hd]
      have hm : (n + 1) % 10 < 10 := Nat.mod_lt _ (by norm_num)
      simp only [interpDigits, List.foldl_cons, List.foldl_nil, List.length_append,
        List.length_cons, List.length_nil, digChar_toNat hm]
      rw [pow_succ, ← Nat.mul_assoc]
      have h10 := Nat.div_add_mod (n + 1) 10
      generalize a * 10 ^ (decCharsAux f ((n + 1) / 10)).length = t
      omega

theorem interpDigits_decChars (n : Nat) : interpDigits 0 (decChars n) = n := by
  unfold decChars
  split
  · next h => subst h; decide
  · have h := decCharsAux_interp n n 0 le_rfl
    simpa using h

theorem decCharsAux_digits :
    ∀ f n : Nat, ∀ c ∈ decCharsAux f n, isDigitC c = true := by
  intro f
  induction f with
  | zero => intro n c hc; simp [decCharsAux] at hc
  | succ f ih =>
    intro n c hc
    match n with
    | 0 => simp [decCharsAux] at hc
    | n + 1 =>
      rw [show decCharsAux (f + 1) (n + 1) =
          decCharsAux f ((n + 1) / 10) ++ [digChar ((n + 1) % 10)] from rfl] at hc
      rcases List.mem_append.mp hc with h1 | h2
      · exact ih _ c h1
      · have hc2 : c = digChar ((n + 1) % 10) := by simpa using h2
        subst hc2
        exact isDigitC_digChar (Nat.mod_lt _ (by norm_num))

theorem decChars_digits (n : Nat) : ∀ c ∈ decChars n, isDigitC c = true := by
  intro c hc
  unfold decChars at hc
  split at hc
  · have hc0 : c = '0' := by simpa using hc
    subst hc0
    decide
  · exact decCharsAux_digits n n c hc

theorem decChars_ne_nil (n : Nat) : decChars n ≠ [] := by
  unfold decChars
  split
  · simp
  · match hn : n with
    | 0 => simp_all
    | m + 1 =>
      rw [show decCharsAux (m + 1) (m + 1) =
          decCharsAux m ((m + 1) / 10) ++ [digChar ((m + 1) % 10)] from rfl]
      simp

theorem digitsVal?_decChars (n : Nat) : digitsVal? (decChars n) = some n := by
  unfold digitsVal?
  rw [if_neg (decChars_ne_nil n),
    if_pos (List.all_eq_true.mpr (decChars_digits n)),
    interpDigits_decChars]

theorem isDigitC_not_space {c : Char} (h : isDigitC c = true) : isSpaceC c = false := by
  unfold isDigitC at h
  unfold isSpaceC
  simp only [Bool.and_eq_true, decide_eq_true_eq] at h
  simp only [Bool.or_eq_false_iff, decide_eq_false_iff_not]
  omega

theorem dropWhile_space_digits (l : List Char) (h : ∀ c ∈ l, isDigitC c = true) :
    l.dropWhile isSpaceC = l := by
  cases l with
  | nil => rfl
  | cons c t =>
    rw [List.dropWhile_cons, isDigitC_not_space (h c (List.mem_cons_self c t))]
    simp

theorem stripC_digits (l : List Char) (h : ∀ c ∈ l, isDigitC c = true) :
    stripC l = l := by
  unfold stripC
  rw [dropWhile_space_digits l h,
    dropWhile_space_digits l.reverse (fun c hc => h c (List.mem_reverse.mp hc)),
    List.reverse_reverse]

theorem pyInt?_natStr (n : Nat) : pyInt? (natStr n) = some (n : Int) := by
  unfold pyInt? natStr
  rw [show (String.mk (decChars n)).data = decChars n from rfl,
    stripC_digits _ (decChars_digits n)]
  obtain ⟨c, t, hct⟩ : ∃ c t, decChars n = c :: t := by
    cases h : decChars n with
    | nil => exact absurd h (decChars_ne_nil n)
    | cons c t => exact ⟨c, t, rfl⟩
  rw [hct]
  have hc : isDigitC c = true := decChars_digits n c (hct ▸ List.mem_cons_self c t)
  have hcm : ¬ c = '-' := by
    intro e; subst e; exact absurd hc (by decide)
  have hcp : ¬ c = '+' := by
    intro e; subst e; exact absurd hc (by decide)
  simp only [pyIntCore, if_neg hcm, if_neg hcp]
  rw [← hct, digitsVal?_decChars]
  rfl

theorem intStr_natCast (n : Nat) : intStr (n : Int) = natStr n := by
  unfold intStr
  rw [if_neg (Int.not_lt.mpr (Int.natCast_nonneg n)), Int.toNat_natCast]

theorem interpDigits_replicate_zero (k : Nat) (l : List Char) :
    interpDigits 0 (List.replicate k '0' ++ l) = interpDigits 0 l := by
  induction k with
  | zero => rfl
  | succ k ih =>
    rw [List.replicate_succ, List.cons_append]
    simpa [interpDigits, List.foldl_cons] using ih

theorem partFn_inj {m n : Nat} (h : partFn (m : Int) = partFn (n : Int)) : m = n := by
  unfold partFn partFnChars at h
  rw [if_neg (Int.not_lt.mpr (Int.natCast_nonneg m)),
    if_neg (Int.not_lt.mpr (Int.natCast_nonneg n)),
    Int.toNat_natCast, Int.toNat_natCast] at h
  have hd := congrArg String.data h
  have hp : List.replicate (3 - (decChars m).length) '0' ++ decChars m
      = List.replicate (3 - (decChars n).length) '0' ++ decChars n := by
    simpa using hd
  have hi := congrArg (interpDigits 0) hp
  rwa [interpDigits_replicate_zero, interpDigits_replicate_zero,
    interpDigits_decChars, interpDigits_decChars] at hi

theorem partFn_natCast_injective :
    Function.Injective (fun k : Nat => partFn (k : Int)) :=
  fun _ _ h => partFn_inj h

/-! ## Header and message structure lemmas -/

theorem findHeader_append (hs : List Header) (l : List Header) (k : String) :
    findHeader (hs ++ l) k = (findHeader hs k).or (findHeader l k) := by
  simp [findHeader, List.find?_append]

theorem findHeader_replaceHeader (hs : List Header) (k v : String) :
    findHeader (replaceHeader hs k v) k =
      (findHeader hs k).map (fun h => { name := h.name, value := v, params := [] }) := by
  induction hs with
  | nil => rfl
  | cons h t ih =>
    by_cases hk : hdrNameEq h.name k
    · simp [replaceHeader, findHeader, List.find?_cons, hk]
    · have hk' : hdrNameEq h.name k = false := by
        simpa using hk
      simp only [replaceHeader, if_neg hk]
      simpa [findHeader, List.find?_cons, hk'] using ih

theorem Message.children_withHeaders (m : Message) (hs : List Header) :
    (m.withHeaders hs).children = m.children := by
  cases m <;> rfl

theorem Message.headers_withHeaders (m : Message) (hs : List Header) :
    (m.withHeaders hs).headers = hs := by
  cases m <;> rfl

theorem Message.isCont_withHeaders (m : Message) (hs : List Header) :
    (m.withHeaders hs).isCont = m.isCont := by
  cases m <;> rfl

theorem Message.children_addHeader (m : Message) (k v : String)
    (ps : List (String × String)) : (m.addHeader k v ps).children = m.children :=
  m.children_withHeaders _

theorem Message.headers_addHeader (m : Message) (k v : String)
    (ps : List (String × String)) :
    (m.addHeader k v ps).headers = m.headers ++ [{ name := k, value := v, params := ps }] :=
  m.headers_withHeaders _

theorem Message.children_setHeaderVal (m : Message) (k v : String) :
    (m.setHeaderVal k v).children = m.children :=
  m.children_withHeaders _

theorem Message.isCont_addHeader (m : Message) (k v : String)
    (ps : List (String × String)) : (m.addHeader k v ps).isCont = m.isCont :=
  m.isCont_withHeaders _

theorem Message.isCont_setHeaderVal (m : Message) (k v : String) :
    (m.setHeaderVal k v).isCont = m.isCont :=
  m.isCont_withHeaders _

theorem Message.payloadDecoded_withHeaders (m : Message) (hs : List Header) :
    (m.withHeaders hs).payloadDecoded = m.payloadDecoded := by
  cases m <;> rfl

theorem Message.payloadDecoded_addHeader (m : Message) (k v : String)
    (ps : List (String × String)) :
    (m.addHeader k v ps).payloadDecoded = m.payloadDecoded :=
  m.payloadDecoded_withHeaders _

theorem Message.headers_attach (m p : Message) : (m.attach p).headers = m.headers := by
  cases m <;> rfl

theorem Message.isCont_attach (m p : Message) : (m.attach p).isCont = m.isCont := by
  cases m <;> rfl

theorem Message.children_attach (m p : Message) (h : m.isCont = true) :
    (m.attach p).children = m.children ++ [p] := by
  cases m with
  | leaf hs b => simp [Message.isCont] at h
  | container hs ps => rfl

theorem Message.getHeader_addHeader_absent (m : Message) (k v : String)
    (ps : List (String × String)) (hk : hdrNameEq k k = true)
    (h : m.getHeader k = none) : (m.addHeader k v ps).getHeader k = some v := by
  have hf : findHeader m.headers k = none := by
    unfold Message.getHeader at h
    cases hx : findHeader m.headers k with
    | none => rfl
    | some x => rw [hx] at h; simp at h
  unfold Message.getHeader
  rw [Message.headers_addHeader, findHeader_append, hf]
  simp [findHeader, List.find?_cons, hk]

theorem Message.getHeader_setHeaderVal (m : Message) (k v : String) :
    (m.setHeaderVal k v).getHeader k = (m.getHeader k).map (fun _ => v) := by
  unfold Message.getHeader Message.setHeaderVal
  rw [Message.headers_withHeaders, findHeader_replaceHeader]
  cases findHeader m.headers k <;> rfl

theorem Message.getHeader_attach (m p : Message) (k : String) :
    (m.attach p).getHeader k = m.getHeader k := by
  unfold Message.getHeader
  rw [Message.headers_attach]

theorem hasHeader_iff_getHeader (m : Message) (k : String) :
    hasHeader m.headers k = (m.getHeader k).isSome := by
  unfold hasHeader Message.getHeader
  cases findHeader m.headers k <;> rfl

/-! ## `multiPartCount` and `attachPart` lemmas -/

theorem multiPartCount_none_spec (c : Message) (h : countOK c) :
    multiPartCount c none =
      ((if hasHeader c.headers ATTACHMENT_FIELD then c
        else c.addHeader ATTACHMENT_FIELD (natStr 0) []), (c.children.length : Int)) ∧
    (multiPartCount c none).1.getHeader ATTACHMENT_FIELD =
      some (natStr c.children.length) := by
  rcases h with ⟨habs, hnil⟩ | hval
  · have hh : hasHeader c.headers ATTACHMENT_FIELD = false := by
      rw [hasHeader_iff_getHeader, habs]; rfl
    have hget : (c.addHeader ATTACHMENT_FIELD (natStr 0) []).getHeader ATTACHMENT_FIELD
        = some (natStr 0) :=
      c.getHeader_addHeader_absent _ _ _ (by decide) habs
    unfold multiPartCount
    rw [hh]
    simp only [Bool.false_eq_true, if_false, hget, Option.getD_some, pyInt?_natStr]
    exact ⟨by simp [hnil], by simp [hnil, hget]⟩
  · have hh : hasHeader c.headers ATTACHMENT_FIELD = true := by
      rw [hasHeader_iff_getHeader, hval]; rfl
    unfold multiPartCount
    rw [hh]
    simp only [if_true, hval, Option.getD_some, pyInt?_natStr]
    exact ⟨trivial, trivial⟩

theorem multiPartCount_set_spec (c : Message) (n : Nat)
    (h : hasHeader c.headers ATTACHMENT_FIELD = true) :
    multiPartCount c (some (n : Int)) =
      (c.setHeaderVal ATTACHMENT_FIELD (natStr n), (n : Int)) := by
  have hs : ∃ x, findHeader c.headers ATTACHMENT_FIELD = some x := by
    unfold hasHeader at h
    cases hx : findHeader c.headers ATTACHMENT_FIELD with
    | none => rw [hx] at h; simp at h
    | some x => exact ⟨x, rfl⟩
  obtain ⟨x, hx⟩ := hs
  have hget : (c.setHeaderVal ATTACHMENT_FIELD (natStr n)).getHeader ATTACHMENT_FIELD
      = some (natStr n) := by
    rw [c.getHeader_setHeaderVal]
    unfold Message.getHeader
    rw [hx]
    rfl
  unfold multiPartCount
  rw [h]
  simp only [if_true, intStr_natCast, hget, Option.getD_some, pyInt?_natStr]

theorem multiPartCount_none_abs (c : Message) (h : countOK c) :
    ∃ c1, multiPartCount c none = (c1, (c.children.length : Int)) ∧
      c1.children = c.children ∧ c1.isCont = c.isCont ∧
      c1.getHeader ATTACHMENT_FIELD = some (natStr c.children.length) := by
  obtain ⟨hmpc, hget⟩ := multiPartCount_none_spec c h
  refine ⟨(multiPartCount c none).1, ?_, ?_, ?_, hget⟩
  · rw [hmpc]
  · rw [hmpc]
    split
    · rfl
    · exact c.children_addHeader _ _ _
  · rw [hmpc]
    split
    · rfl
    · exact c.isCont_addHeader _ _ _

theorem lookupParam_filename (fn : String) :
    lookupParam [("filename", fn)] "filename" = some fn := rfl

theorem hasCDFilename_addCD (m : Message) (fn : String) :
    hasCDFilename
      (m.addHeader "Content-Disposition" "attachment" [("filename", fn)]) = true := by
  unfold hasCDFilename
  rw [Message.headers_addHeader, List.any_append]
  have h2 : List.any [Header.mk "Content-Disposition" "attachment"
      [("filename", fn)]] (fun h =>
        hdrNameEq h.name "Content-Disposition" &&
          (lookupParam h.params "filename").isSome) = true := rfl
  rw [h2, Bool.or_true]

theorem childNamed_addCD (m : Message) (fn : String) :
    childNamed
      (m.addHeader "Content-Disposition" "attachment" [("filename", fn)]) = true := by
  unfold childNamed
  rw [hasCDFilename_addCD, Bool.true_or]

theorem childNamed_of_filename (m : Message)
    (h : ¬ (m.getFilename.getD "") = "") : childNamed m = true := by
  unfold childNamed
  cases hf : m.getFilename with
  | none => rw [hf] at h; simp at h
  | some v => simp [hf]

/-- The single choke point: `_attach_part` preserves the engine invariant
and appends exactly one (well-named) child. -/
theorem attachPart_spec (c part : Message) (st : St) (hc : Inv c st) :
    Inv (attachPart c part st).1 (attachPart c part st).2 ∧
    ∃ p', (attachPart c part st).1.children = c.children ++ [p'] ∧
      p'.payloadDecoded = part.payloadDecoded := by
  obtain ⟨hcont, hcount, hnamed, hsynth⟩ := hc
  obtain ⟨ks, hsyn, hnd, hbound⟩ := hsynth
  obtain ⟨c1, hmpc, hch1, hic1, hg1⟩ := multiPartCount_none_abs c hcount
  have hlen : ((c.children.length : Int) + 1) = ((c.children.length + 1 : Nat) : Int) := by
    push_cast
    ring
  have hh1 : hasHeader c1.headers ATTACHMENT_FIELD = true := by
    rw [hasHeader_iff_getHeader, hg1]
    rfl
  unfold attachPart
  rw [hmpc]
  dsimp only
  by_cases hfn : (part.getFilename.getD "") = ""
  · -- synthesized filename
    rw [if_pos hfn]
    dsimp only
    set fn := partFn ((c.children.length : Int) + 1) with hfndef
    set p' := part.addHeader "Content-Disposition" "attachment" [("filename", fn)]
      with hp'
    have hh2 : hasHeader (c1.attach p').headers ATTACHMENT_FIELD = true := by
      rw [hasHeader_iff_getHeader, Message.getHeader_attach, hg1]
      rfl
    rw [hlen, multiPartCount_set_spec _ _ hh2]
    have hcont2 : (c1.attach p').isCont = true := by
      rw [Message.isCont_attach, hic1, hcont]
    have hch2 : (c1.attach p').children = c.children ++ [p'] := by
      rw [Message.children_attach _ _ (by rw [hic1, hcont]), hch1]
    have hch3 :
        ((c1.attach p').setHeaderVal ATTACHMENT_FIELD
          (natStr (c.children.length + 1))).children = c.children ++ [p'] := by
      rw [Message.children_setHeaderVal, hch2]
    refine ⟨⟨?_, ?_, ?_, ?_⟩, ⟨p', hch3, part.payloadDecoded_addHeader _ _ _⟩⟩
    · rw [Message.isCont_setHeaderVal, hcont2]
    · right
      rw [Message.getHeader_setHeaderVal, Message.getHeader_attach, hg1, hch3]
      simp
    · intro m hm
      rw [hch3] at hm
      rcases List.mem_append.mp hm with h1 | h2
      · exact hnamed m h1
      · have : m = p' := by simpa using h2
        subst this
        exact childNamed_addCD part fn
    · refine ⟨ks ++ [c.children.length + 1], ?_, ?_, ?_⟩
      · show st.synth ++ [fn] = _
        rw [List.map_append, ← hsyn, hfndef, hlen]
        rfl
      · rw [← List.concat_eq_append]
        refine List.Nodup.concat ?_ hnd
        intro hmem
        have := hbound _ hmem
        omega
      · intro k hk
        rw [hch3]
        rcases List.mem_append.mp hk with h1 | h2
        · have := hbound _ h1
          simp only [List.length_append, List.length_cons, List.length_nil]
          omega
        · have : k = c.children.length + 1 := by simpa using h2
          subst this
          simp
  · -- the part already had a (truthy) filename
    rw [if_neg hfn]
    dsimp only
    have hh2 : hasHeader (c1.attach part).headers ATTACHMENT_FIELD = true := by
      rw [hasHeader_iff_getHeader, Message.getHeader_attach, hg1]
      rfl
    rw [hlen, multiPartCount_set_spec _ _ hh2]
    have hcont2 : (c1.attach part).isCont = true := by
      rw [Message.isCont_attach, hic1, hcont]
    have hch2 : (c1.attach part).children = c.children ++ [part] := by
      rw [Message.children_attach _ _ (by rw [hic1, hcont]), hch1]
    have hch3 :
        ((c1.attach part).setHeaderVal ATTACHMENT_FIELD
          (natStr (c.children.length + 1))).children = c.children ++ [part] := by
      rw [Message.children_setHeaderVal, hch2]
    refine ⟨⟨?_, ?_, ?_, ?_⟩, ⟨part, hch3, rfl⟩⟩
    · rw [Message.isCont_setHeaderVal, hcont2]
    · right
      rw [Message.getHeader_setHeaderVal, Message.getHeader_attach, hg1, hch3]
      simp
    · intro m hm
      rw [hch3] at hm
      rcases List.mem_append.mp hm with h1 | h2
      · exact hnamed m h1
      · have : m = part := by simpa using h2
        subst this
        exact childNamed_of_filename _ hfn
    · refine ⟨ks, hsyn, hnd, ?_⟩
      intro k hk
      have := hbound _ hk
      rw [hch3]
      simp only [List.length_append, List.length_cons, List.length_nil]
      omega

/-! ## Invariant preservation through the engine -/

theorem except_bind_ok {α β : Type} (a : α) (k : α → Res β) :
    (Except.ok a >>= k) = k a := rfl

theorem except_bind_error {α β : Type} (e : PErr) (k : α → Res β) :
    ((Except.error e : Res α) >>= k) = Except.error e := rfl

theorem foldlM_except_inv {α β : Type} {P : β → Prop} {f : β → α → Res β}
    (hf : ∀ b a r, P b → f b a = Except.ok r → P r) :
    ∀ (l : List α) (b r : β), P b → List.foldlM f b l = Except.ok r → P r := by
  intro l
  induction l with
  | nil =>
    intro b r hb h
    rw [List.foldlM_nil] at h
    cases h
    exact hb
  | cons x xs ih =>
    intro b r hb h
    rw [List.foldlM_cons] at h
    cases hfx : f b x with
    | error e =>
      rw [hfx, except_bind_error] at h
      exact absurd h (by simp)
    | ok b' =>
      rw [hfx, except_bind_ok] at h
      exact ih b' r (hf b x b' hb hfx) h

theorem Inv_synth_eq {c : Message} {st st' : St} (h : st'.synth = st.synth)
    (hi : Inv c st) : Inv c st' := by
  obtain ⟨h1, h2, h3, ks, hs1, hs2, hs3⟩ := hi
  exact ⟨h1, h2, h3, ks, by rw [h, hs1], hs2, hs3⟩

theorem includeURL_cases (env : Env)
    (recur : Message → Message → St → Res (Message × St)) (once : Bool)
    (u : String) (acc : Message × St) (r : Message × St)
    (h : includeURL env recur once u acc = Except.ok r) :
    r = acc ∨ ∃ b st', st'.synth = acc.2.synth ∧ recur b acc.1 st' = Except.ok r := by
  unfold includeURL at h
  split at h
  · exact Or.inl (Except.ok.inj h).symm
  · dsimp only at h
    right
    refine ⟨_, _, ?_, h⟩
    split
    · rfl
    · dsimp only
      split
      · rfl
      · rfl

theorem includeLine_cases (env : Env)
    (recur : Message → Message → St → Res (Message × St)) (acc : Message × St)
    (line : String) (r : Message × St)
    (h : includeLine env recur acc line = Except.ok r) :
    r = acc ∨ ∃ b st', st'.synth = acc.2.synth ∧ recur b acc.1 st' = Except.ok r := by
  unfold includeLine at h
  split at h
  · exact Or.inl (Except.ok.inj h).symm
  · dsimp only at h
    split at h
    · split at h
      · exact Or.inl (Except.ok.inj h).symm
      · exact includeURL_cases env recur _ _ acc r h
    · split at h
      · split at h
        · exact Or.inl (Except.ok.inj h).symm
        · exact includeURL_cases env recur _ _ acc r h
      · split at h
        · exact Or.inl (Except.ok.inj h).symm
        · exact includeURL_cases env recur _ _ acc r h

theorem except_ok_of_bind {α β : Type} {x : Res α} {k : α → Res β} {r : β}
    (h : (x >>= k) = Except.ok r) : ∃ a, x = Except.ok a ∧ k a = Except.ok r := by
  cases x with
  | error e => rw [except_bind_error] at h; exact absurd h (by simp)
  | ok a => exact ⟨a, rfl, by rwa [except_bind_ok] at h⟩

theorem explodeEntry_cases (env : Env) (acc : Message × St) (ent : AEntry)
    (r : Message × St) (h : explodeEntry env acc ent = Except.ok r) :
    r = acc ∨ ∃ part, r = attachPart acc.1 part acc.2 := by
  unfold explodeEntry at h
  rcases ent with s | kvs | _
  case str =>
    dsimp only at h
    obtain ⟨ms, -, h⟩ := except_ok_of_bind h
    obtain ⟨msg, -, h⟩ := except_ok_of_bind h
    exact Or.inr ⟨msg, (Except.ok.inj h).symm⟩
  case dict =>
    dsimp only at h
    obtain ⟨ms, -, h⟩ := except_ok_of_bind h
    obtain ⟨msg, -, h⟩ := except_ok_of_bind h
    exact Or.inr ⟨msg, (Except.ok.inj h).symm⟩
  case other => exact Or.inl (Except.ok.inj h).symm

theorem doInclude_inv (env : Env)
    (recur : Message → Message → St → Res (Message × St)) (content : String)
    (append : Message) (st : St) (r : Message × St)
    (hrec : ∀ b a s rr, Inv a s → recur b a s = Except.ok rr → Inv rr.1 rr.2)
    (hi : Inv append st) (h : doInclude env recur content append st = Except.ok r) :
    Inv r.1 r.2 := by
  unfold doInclude at h
  refine @foldlM_except_inv String (Message × St) (fun acc => Inv acc.1 acc.2) _
    ?_ _ _ _ hi h
  intro acc line rr hacc hline
  rcases includeLine_cases env recur acc line rr hline with he | ⟨b, st', hsy, hr⟩
  · rw [he]; exact hacc
  · exact hrec b acc.1 st' rr (Inv_synth_eq hsy hacc) hr

theorem explodeArchive_inv (env : Env) (archive : String) (append : Message)
    (st : St) (r : Message × St) (hi : Inv append st)
    (h : explodeArchive env archive append st = Except.ok r) : Inv r.1 r.2 := by
  unfold explodeArchive at h
  refine @foldlM_except_inv AEntry (Message × St) (fun acc => Inv acc.1 acc.2) _
    ?_ _ _ _ hi h
  intro acc ent rr hacc hent
  rcases explodeEntry_cases env acc ent rr hent with he | ⟨part, hp⟩
  · rw [he]; exact hacc
  · rw [hp]
    exact (attachPart_spec acc.1 part acc.2 hacc).1

theorem stepPart_inv (env : Env)
    (recur : Message → Message → St → Res (Message × St)) (aliased : Bool)
    (part : Message) (acc : Message × Message × St) (r : Message × Message × St)
    (hrec : ∀ b a s rr, Inv a s → recur b a s = Except.ok rr → Inv rr.1 rr.2)
    (hi : Inv acc.2.1 acc.2.2)
    (h : stepPart env recur aliased part acc = Except.ok r) : Inv r.2.1 r.2.2 := by
  obtain ⟨base, append, st⟩ := acc
  unfold stepPart at h
  dsimp only at h hi
  split at h
  · rw [← Except.ok.inj h]
    exact hi
  · split at h
    · cases hd : doInclude env recur part.payloadDecoded append st with
      | error e => rw [hd, except_bind_error] at h; exact absurd h (by simp)
      | ok rr =>
        rw [hd, except_bind_ok] at h
        rw [← Except.ok.inj h]
        exact doInclude_inv env recur _ append st rr hrec hi hd
    · split at h
      · cases hd : explodeArchive env part.payloadDecoded append st with
        | error e => rw [hd, except_bind_error] at h; exact absurd h (by simp)
        | ok rr =>
          rw [hd, except_bind_ok] at h
          rw [← Except.ok.inj h]
          exact explodeArchive_inv env _ append st rr hi hd
      · rw [← Except.ok.inj h]
        dsimp only
        exact (attachPart_spec append _ st hi).1

/-- The engine preserves the output-container invariant: any successful run
leaves the container and state invariant-respecting. -/
theorem engine_inv :
    ∀ (fuel : Nat) (env : Env) (call : ECall) (base append : Message) (st : St)
      (r : Message × Message × St), Inv append st →
      engineF fuel env call base append st = Except.ok r → Inv r.2.1 r.2.2 := by
  intro fuel
  induction fuel with
  | zero =>
    intro env call base append st r _ h
    exact absurd h (by simp [engineF])
  | succ f ih =>
    intro env call base append st r hi h
    have hrec : ∀ b a s rr, Inv a s →
        ((engineF f env ECall.pmsg b a s).map (fun x => (x.2.1, x.2.2)))
          = Except.ok rr → Inv rr.1 rr.2 := by
      intro b a s rr hia hr
      cases hx : engineF f env ECall.pmsg b a s with
      | error e => rw [hx] at hr; exact absurd hr (by simp [Except.map])
      | ok x =>
        rw [hx] at hr
        have hxin := ih env ECall.pmsg b a s x hia hx
        have : (x.2.1, x.2.2) = rr := Except.ok.inj hr
        rw [← this]
        exact hxin
    cases call with
    | pmsg =>
      simp only [engineF] at h
      cases hs : stepPart env
          (fun b a s => (engineF f env ECall.pmsg b a s).map (fun x => (x.2.1, x.2.2)))
          true base (base, append, st) with
      | error e => rw [hs, except_bind_error] at h; exact absurd h (by simp)
      | ok acc =>
        rw [hs, except_bind_ok] at h
        have hia := stepPart_inv env _ true base (base, append, st) acc hrec hi hs
        exact ih env (ECall.pwalk base.children) acc.1 acc.2.1 acc.2.2 r hia h
    | pwalk l =>
      cases l with
      | nil =>
        simp only [engineF] at h
        rw [← Except.ok.inj h]
        exact hi
      | cons m rest =>
        simp only [engineF] at h
        cases hs : stepPart env
            (fun b a s => (engineF f env ECall.pmsg b a s).map (fun x => (x.2.1, x.2.2)))
            false m (base, append, st) with
        | error e => rw [hs, except_bind_error] at h; exact absurd h (by simp)
        | ok acc =>
          rw [hs, except_bind_ok] at h
          have hia := stepPart_inv env _ false m (base, append, st) acc hrec hi hs
          cases hw : engineF f env (ECall.pwalk m.children) acc.1 acc.2.1 acc.2.2 with
          | error e => rw [hw, except_bind_error] at h; exact absurd h (by simp)
          | ok acc2 =>
            rw [hw, except_bind_ok] at h
            have hia2 := ih env (ECall.pwalk m.children) acc.1 acc.2.1 acc.2.2 acc2 hia hw
            exact ih env (ECall.pwalk rest) acc2.1 acc2.2.1 acc2.2.2 r hia2 h

theorem Inv_init (st : St) (hsy : st.synth = []) : Inv mimeMultipart st := by
  refine ⟨rfl, Or.inl ⟨rfl, rfl⟩, ?_, [], ?_, List.nodup_nil, ?_⟩
  · intro m hm
    simp [mimeMultipart, Message.children] at hm
  · rw [hsy]; rfl
  · intro k hk
    simp at hk

theorem process_ok_inv (env : Env) (fuel : Nat) (blob : String) (st : St)
    (out : Message) (st' : St) (hsy : st.synth = [])
    (h : process env fuel blob st = Except.ok (out, st')) : Inv out st' := by
  unfold process at h
  cases hx : engineF fuel env ECall.pmsg (env.parse blob) mimeMultipart st with
  | error e => rw [hx] at h; exact absurd h (by simp [Except.map])
  | ok x =>
    rw [hx] at h
    have hr : (x.2.1, x.2.2) = (out, st') := Except.ok.inj h
    have hinv := engine_inv fuel env ECall.pmsg (env.parse blob) mimeMultipart st x
      (Inv_init st hsy) hx
    injection hr with h1 h2
    rw [← h1, ← h2]
    exact hinv

/-! ## Claim theorems -/

/-- C1 (counterexample): for the input `"#include\n"` — a bare include
marker with no URL — `process` returns a container with zero children and
*no* `Number-Attachments` header at all, so the header is not present for
every input blob as the claim states. -/
theorem C1_counterexample :
    process env0 3 "#include\n" st0 = Except.ok (mimeMultipart, st0) ∧
    mimeMultipart.getHeader ATTACHMENT_FIELD = none ∧
    mimeMultipart.children = [] :=
  ⟨rfl, rfl, rfl⟩

/-- C1 (amended): after a successful `process` run (started with an empty
ghost log), the output container's `Number-Attachments` header holds exactly
the decimal rendering of its number of direct children whenever it is
present, and it can be absent only when no part was attached at all (zero
children); it is created with value 0 on first access and updated by
read-then-replace on every attach. -/
theorem C1_attachment_count (env : Env) (fuel : Nat) (blob : String) (st : St)
    (out : Message) (st' : St) (hsy : st.synth = [])
    (h : process env fuel blob st = Except.ok (out, st')) :
    out.getHeader ATTACHMENT_FIELD = some (natStr out.children.length) ∨
    (out.getHeader ATTACHMENT_FIELD = none ∧ out.children = []) := by
  obtain ⟨-, hcount, -, -⟩ := process_ok_inv env fuel blob st out st' hsy h
  rcases hcount with hl | hr
  · exact Or.inr hl
  · exact Or.inl hr

/-- Witness for C1: a concrete run on the bare blob `"hi"`. -/
theorem C1_attachment_count_witness :
    (Message.container
        [{ name := "Content-Type", value := "multipart/mixed", params := [] },
         { name := "MIME-Version", value := "1.0", params := [] },
         { name := "Number-Attachments", value := "1", params := [] }]
        [Message.leaf
          [{ name := "Content-Type", value := "text/x-not-multipart", params := [] },
           { name := "Content-Disposition", value := "attachment",
             params := [("filename", "part-001")] }] "hi"]).getHeader ATTACHMENT_FIELD =
      some (natStr (Message.container
        [{ name := "Content-Type", value := "multipart/mixed", params := [] },
         { name := "MIME-Version", value := "1.0", params := [] },
         { name := "Number-Attachments", value := "1", params := [] }]
        [Message.leaf
          [{ name := "Content-Type", value := "text/x-not-multipart", params := [] },
           { name := "Content-Disposition", value := "attachment",
             params := [("filename", "part-001")] }] "hi"]).children.length) ∨
    ((Message.container
        [{ name := "Content-Type", value := "multipart/mixed", params := [] },
         { name := "MIME-Version", value := "1.0", params := [] },
         { name := "Number-Attachments", value := "1", params := [] }]
        [Message.leaf
          [{ name := "Content-Type", value := "text/x-not-multipart", params := [] },
           { name := "Content-Disposition", value := "attachment",
             params := [("filename", "part-001")] }] "hi"]).getHeader ATTACHMENT_FIELD =
      none ∧
    (Message.container
        [{ name := "Content-Type", value := "multipart/mixed", params := [] },
         { name := "MIME-Version", value := "1.0", params := [] },
         { name := "Number-Attachments", value := "1", params := [] }]
        [Message.leaf
          [{ name := "Content-Type", value := "text/x-not-multipart", params := [] },
           { name := "Content-Disposition", value := "attachment",
             params := [("filename", "part-001")] }] "hi"]).children = []) :=
  C1_attachment_count env0 3 "hi" st0 _
    { fs := [], fetched := [], synth := ["part-001"] } rfl rfl

/-- C7 (counterexample): a leaf whose `Content-Type` header carries a `name`
parameter (`user.txt`) but which has no `Content-Disposition` header is
attached as-is — its filename is truthy via the `Content-Type` fallback of
`get_filename` — so the attached child carries no filename-bearing
`Content-Disposition` header, contradicting the claim. -/
theorem C7_counterexample :
    process env0 5 "multi-named" st0 =
      Except.ok (Message.container
        [{ name := "Content-Type", value := "multipart/mixed", params := [] },
         { name := "MIME-Version", value := "1.0", params := [] },
         { name := "Number-Attachments", value := "1", params := [] }]
        [Message.leaf
          [{ name := "Content-Type", value := "text/plain",
             params := [("name", "user.txt")] }] "hi"], st0) ∧
    hasCDFilename (Message.leaf
      [{ name := "Content-Type", value := "text/plain",
         params := [("name", "user.txt")] }] "hi") = false :=
  ⟨rfl, by decide⟩

/-- C7 (amended): after a successful `process` run started with an empty
ghost log, every attached child either carries a filename-bearing
`Content-Disposition` header or already exposed a filename via
`get_filename` (which also accepts a `Content-Type` `name` parameter), and
the synthesized filenames of the run are pairwise distinct. -/
theorem C7_filenames (env : Env) (fuel : Nat) (blob : String) (st : St)
    (out : Message) (st' : St) (hsy : st.synth = [])
    (h : process env fuel blob st = Except.ok (out, st')) :
    (∀ m ∈ out.children, childNamed m = true) ∧ st'.synth.Nodup := by
  obtain ⟨-, -, hnamed, ks, hks, hnd, -⟩ :=
    process_ok_inv env fuel blob st out st' hsy h
  refine ⟨hnamed, ?_⟩
  rw [hks]
  exact hnd.map partFn_natCast_injective

/-- Witness for C7: a concrete run on the bare blob `"hello"`; the single
attached child is well-named and the synthesized-filename log is
duplicate-free. -/
theorem C7_filenames_witness :
    childNamed (Message.leaf
      [{ name := "Content-Type", value := "text/x-not-multipart", params := [] },
       { name := "Content-Disposition", value := "attachment",
         params := [("filename", "part-001")] }] "hello") = true ∧
    (["part-001"] : List String).Nodup := by
  have h := C7_filenames env0 3 "hello" st0
    (Message.container
      [{ name := "Content-Type", value := "multipart/mixed", params := [] },
       { name := "MIME-Version", value := "1.0", params := [] },
       { name := "Number-Attachments", value := "1", params := [] }]
      [Message.leaf
        [{ name := "Content-Type", value := "text/x-not-multipart", params := [] },
         { name := "Content-Disposition", value := "attachment",
           params := [("filename", "part-001")] }] "hello"])
    { fs := [], fetched := [], synth := ["part-001"] } rfl rfl
  exact ⟨h.1 _ (List.Mem.head _), h.2⟩

/-- C10: `_multi_part_count` self-heals: after any call the attachment-count
header is present and parses as an integer; if it was absent (and no new
count was stored) it was created as `"0"` with the call returning 0; if its
stored value was unparsable (and no new count was stored) it was replaced by
`"0"` with the call returning 0. -/
theorem C10_multi_part_count (msg : Message) (newc : Option Int) :
    ((multiPartCount msg newc).1.getHeader ATTACHMENT_FIELD).isSome = true ∧
    (∀ v, (multiPartCount msg newc).1.getHeader ATTACHMENT_FIELD = some v →
      ∃ i, pyInt? v = some i) ∧
    (msg.getHeader ATTACHMENT_FIELD = none → newc = none →
      (multiPartCount msg newc).1.getHeader ATTACHMENT_FIELD = some (natStr 0) ∧
      (multiPartCount msg newc).2 = 0) ∧
    (∀ v0, msg.getHeader ATTACHMENT_FIELD = some v0 → pyInt? v0 = none →
      newc = none →
      (multiPartCount msg newc).1.getHeader ATTACHMENT_FIELD = some (natStr 0) ∧
      (multiPartCount msg newc).2 = 0) := by
  have hens : ∃ m1 v1, (if hasHeader msg.headers ATTACHMENT_FIELD then msg
      else msg.addHeader ATTACHMENT_FIELD (natStr 0) []) = m1 ∧
      m1.getHeader ATTACHMENT_FIELD = some v1 ∧
      (msg.getHeader ATTACHMENT_FIELD = none → v1 = natStr 0) ∧
      (∀ v0, msg.getHeader ATTACHMENT_FIELD = some v0 → v1 = v0) := by
    by_cases hh : hasHeader msg.headers ATTACHMENT_FIELD = true
    · have hsome : (msg.getHeader ATTACHMENT_FIELD).isSome = true := by
        rwa [hasHeader_iff_getHeader] at hh
      cases hv : msg.getHeader ATTACHMENT_FIELD with
      | none => rw [hv] at hsome; exact absurd hsome (by simp)
      | some v =>
        refine ⟨msg, v, by rw [hh]; simp, hv, ?_, ?_⟩
        · intro hnone; exact absurd hnone (by simp)
        · intro v0 hv0; exact Option.some.inj hv0
    · have hh' : hasHeader msg.headers ATTACHMENT_FIELD = false := by
        simpa using hh
      have hnone : msg.getHeader ATTACHMENT_FIELD = none := by
        rw [hasHeader_iff_getHeader] at hh'
        cases hv : msg.getHeader ATTACHMENT_FIELD with
        | none => rfl
        | some v => rw [hv] at hh'; exact absurd hh' (by simp)
      refine ⟨msg.addHeader ATTACHMENT_FIELD (natStr 0) [], natStr 0,
        by rw [hh']; simp, msg.getHeader_addHeader_absent _ _ _ (by decide) hnone,
        fun _ => rfl, ?_⟩
      intro v0 hv0; rw [hnone] at hv0; exact absurd hv0 (by simp)
  obtain ⟨m1, v1, hm1, hg1, habs, hpres⟩ := hens
  have hh1 : hasHeader m1.headers ATTACHMENT_FIELD = true := by
    rw [hasHeader_iff_getHeader, hg1]; rfl
  cases newc with
  | some n =>
    have hg2 : (m1.setHeaderVal ATTACHMENT_FIELD (intStr n)).getHeader
        ATTACHMENT_FIELD = some (intStr n) := by
      rw [Message.getHeader_setHeaderVal, hg1]; rfl
    unfold multiPartCount
    rw [hm1]
    dsimp only
    cases hp : pyInt? (((m1.setHeaderVal ATTACHMENT_FIELD
        (intStr n)).getHeader ATTACHMENT_FIELD).getD "") with
    | some i =>
      dsimp only
      refine ⟨by rw [hg2]; rfl, ?_, ?_, ?_⟩
      · intro v hv
        rw [hg2] at hv
        rw [hg2, Option.getD_some] at hp
        exact ⟨i, by rw [← Option.some.inj hv]; exact hp⟩
      · intro _ hc; exact absurd hc (by simp)
      · intro v0 _ _ hc; exact absurd hc (by simp)
    | none =>
      dsimp only
      have hg3 : ((m1.setHeaderVal ATTACHMENT_FIELD (intStr n)).setHeaderVal
          ATTACHMENT_FIELD (natStr 0)).getHeader ATTACHMENT_FIELD
          = some (natStr 0) := by
        rw [Message.getHeader_setHeaderVal, hg2]; rfl
      refine ⟨by rw [hg3]; rfl, ?_, ?_, ?_⟩
      · intro v hv
        rw [hg3] at hv
        exact ⟨0, by rw [← Option.some.inj hv]; exact pyInt?_natStr 0⟩
      · intro _ hc; exact absurd hc (by simp)
      · intro v0 _ _ hc; exact absurd hc (by simp)
  | none =>
    unfold multiPartCount
    rw [hm1]
    dsimp only
    cases hp : pyInt? ((m1.getHeader ATTACHMENT_FIELD).getD "") with
    | some i =>
      dsimp only
      refine ⟨by rw [hg1]; rfl, ?_, ?_, ?_⟩
      · intro v hv
        rw [hg1] at hv
        rw [hg1, Option.getD_some] at hp
        exact ⟨i, by rw [← Option.some.inj hv]; exact hp⟩
      · intro hab _
        have hv1 : v1 = natStr 0 := habs hab
        rw [hg1, Option.getD_some, hv1, pyInt?_natStr] at hp
        have hi : i = ((0 : Nat) : Int) := (Option.some.inj hp).symm
        exact ⟨by rw [hg1, hv1], by rw [hi]; rfl⟩
      · intro v0 hv0 hbad _
        have hv1 : v1 = v0 := hpres v0 hv0
        rw [hg1, Option.getD_some, hv1, hbad] at hp
        exact absurd hp (by simp)
    | none =>
      dsimp only
      have hg3 : (m1.setHeaderVal ATTACHMENT_FIELD (natStr 0)).getHeader
          ATTACHMENT_FIELD = some (natStr 0) := by
        rw [Message.getHeader_setHeaderVal, hg1]; rfl
      refine ⟨by rw [hg3]; rfl, ?_, ?_, ?_⟩
      · intro v hv
        rw [hg3] at hv
        exact ⟨0, by rw [← Option.some.inj hv]; exact pyInt?_natStr 0⟩
      · intro _ _; exact ⟨hg3, rfl⟩
      · intro v0 _ _ _; exact ⟨hg3, rfl⟩

/-- C2 (code bug): processing a multipart input whose leaf `text/plain` part
sniffs to `text/x-shellscript`, the engine stamps the corrected content type
onto `base_msg` — the root of the *input* tree — while the leaf is attached
with its original `Content-Type: text/plain` untouched. The returned triple
exhibits both: the mutated input root carries the sniffed type, the attached
child does not. -/
theorem C2_stamp_on_base :
    processMsg env0 5 (parse0 "multi-shell") mimeMultipart st0 =
      Except.ok (Message.container
        [{ name := "Content-Type", value := "text/x-shellscript", params := [] }]
        [Message.leaf
          [{ name := "Content-Type", value := "text/plain", params := [] }]
          "#!/bin/sh"],
       Message.container
        [{ name := "Content-Type", value := "multipart/mixed", params := [] },
         { name := "MIME-Version", value := "1.0", params := [] },
         { name := "Number-Attachments", value := "1", params := [] }]
        [Message.leaf
          [{ name := "Content-Type", value := "text/plain", params := [] },
           { name := "Content-Disposition", value := "attachment",
             params := [("filename", "part-001")] }] "#!/bin/sh"],
       { fs := [], fetched := [], synth := ["part-001"] }) ∧
    resolvedCtype env0 (Message.leaf
      [{ name := "Content-Type", value := "text/plain", params := [] }]
      "#!/bin/sh") = "text/x-shellscript" ∧
    (Message.leaf
      [{ name := "Content-Type", value := "text/plain", params := [] },
       { name := "Content-Disposition", value := "attachment",
         params := [("filename", "part-001")] }] "#!/bin/sh").getContentType
      = "text/plain" :=
  ⟨rfl, rfl, rfl⟩

/-- C3 (counterexample): an archive entry whose explicit `type` contains no
slash makes the two-name unpacking of `mtype.split('/', 1)` raise
`ValueError`, which escapes `process`. -/
theorem C3_counterexample :
    process env0 3 "#cloud-config-archive bad-type" st0 =
      Except.error (PErr.py "ValueError: not enough values to unpack") := rfl

/-- C4 (counterexample): an archive entry with an extra key (`x-foo`) but no
`header` key makes `ent['header']` raise `KeyError`, which escapes
`process` — so the extra key is not added as a header at all. -/
theorem C4_counterexample :
    process env0 3 "#cloud-config-archive no-header" st0 =
      Except.error (PErr.py "KeyError: header") := rfl

/-- Witness for C10: a container carrying the unparsable count value
`"garbage"` is healed to `"0"` and the call returns 0. -/
theorem C10_multi_part_count_witness :
    (multiPartCount (Message.container
      [{ name := "Number-Attachments", value := "garbage", params := [] }] [])
      none).1.getHeader ATTACHMENT_FIELD = some (natStr 0) ∧
    (multiPartCount (Message.container
      [{ name := "Number-Attachments", value := "garbage", params := [] }] [])
      none).2 = 0 :=
  (C10_multi_part_count (Message.container
    [{ name := "Number-Attachments", value := "garbage", params := [] }] [])
    none).2.2.2 "garbage" rfl (by decide) rfl

/-! ## No Python exception escapes (under well-shaped decodes) -/

theorem isPyError_map {α β : Type} (f : α → β) (x : Res α) :
    isPyError (x.map f) = isPyError x := by
  cases x with
  | ok a => rfl
  | error e => cases e <;> rfl

theorem except_bind_pure {α β : Type} (a : α) (k : α → Res β) :
    ((pure a : Res α) >>= k) = k a := rfl

theorem isPyError_bind {α β : Type} (x : Res α) (k : α → Res β)
    (hx : isPyError x = false) (hk : ∀ a, isPyError (k a) = false) :
    isPyError (x >>= k) = false := by
  cases x with
  | error e =>
    rw [except_bind_error]
    cases e with
    | fuel => rfl
    | py m => exact absurd hx (by simp [isPyError])
  | ok a => rw [except_bind_ok]; exact hk a

theorem isPyError_foldlM_mem {α β : Type} (f : β → α → Res β) :
    ∀ l : List α, (∀ b : β, ∀ a ∈ l, isPyError (f b a) = false) →
      ∀ b : β, isPyError (List.foldlM f b l) = false := by
  intro l
  induction l with
  | nil => intro _ b; rw [List.foldlM_nil]; rfl
  | cons x xs ih =>
    intro hf b
    rw [List.foldlM_cons]
    refine isPyError_bind _ _ (hf b x (List.mem_cons_self x xs)) ?_
    intro b'
    exact ih (fun b2 a ha => hf b2 a (List.mem_cons_of_mem x ha)) b'

theorem splitAtCharC_of_mem (c : Char) :
    ∀ l : List Char, c ∈ l → ∃ p, splitAtCharC c l = some p := by
  intro l
  induction l with
  | nil => intro h; cases h
  | cons x xs ih =>
    intro h
    unfold splitAtCharC
    by_cases hx : x = c
    · rw [if_pos hx]; exact ⟨([], xs), rfl⟩
    · rw [if_neg hx]
      have hm : c ∈ xs := by
        cases h with
        | head => exact absurd rfl hx
        | tail _ hm => exact hm
      obtain ⟨p, hp⟩ := ih hm
      exact ⟨(x :: p.1, p.2), by rw [hp]; rfl⟩

theorem splitSlash1_ok (s : String) (h : slashOK s) :
    ∃ p, splitSlash1 s = Except.ok p := by
  obtain ⟨p, hp⟩ := splitAtCharC_of_mem '/' s.data h
  exact ⟨(String.mk p.1, String.mk p.2), by unfold splitSlash1; rw [hp]; rfl⟩

theorem entryMtype_slash (env : Env) (kvs : List (String × String))
    (hT : ∀ pt ∈ env.sniffTable, slashOK pt.2)
    (hE : ∀ t, lookupKey kvs "type" = some t → t ≠ "" → slashOK t) :
    slashOK (entryMtype env kvs) := by
  unfold entryMtype
  dsimp only
  split
  · unfold typeFromStartsWith
    cases hf : env.sniffTable.find?
        (fun pt => startsWithS ((lookupKey kvs "content").getD "") pt.1) with
    | none => exact (by decide : slashOK ARCHIVE_UNDEF_TYPE)
    | some pt => exact hT pt (List.mem_of_find?_eq_some hf)
  · next hne =>
    cases hl : lookupKey kvs "type" with
    | none => rw [hl] at hne; simp at hne
    | some t =>
      refine hE t hl ?_
      rw [hl] at hne
      simpa using hne

theorem extraHeaderStep_no_py (kvs : List (String × String))
    (hOK : (∃ kv ∈ kvs, ¬(kv.1 = "content" ∨ kv.1 = "filename" ∨ kv.1 = "type")) →
      (lookupKey kvs "header").isSome = true) :
    ∀ (m : Message), ∀ kv ∈ kvs, isPyError (extraHeaderStep kvs m kv) = false := by
  intro m kv hm
  unfold extraHeaderStep
  by_cases hskip : (kv.1 = "content" ∨ kv.1 = "filename" ∨ kv.1 = "type")
  · rw [if_pos hskip]; rfl
  · rw [if_neg hskip]
    have hhs := hOK ⟨kv, hm, hskip⟩
    cases hl : lookupKey kvs "header" with
    | none => rw [hl] at hhs; exact absurd hhs (by simp)
    | some hv => rfl

theorem contentWrap_extras (s : String) :
    (∃ kv ∈ [("content", s)],
      ¬(kv.1 = "content" ∨ kv.1 = "filename" ∨ kv.1 = "type")) →
    (lookupKey [("content", s)] "header").isSome = true := by
  rintro ⟨kv, hm, hn⟩
  have hkv : kv = ("content", s) := by simpa using hm
  subst hkv
  exact absurd (Or.inl rfl) hn

theorem explodeEntry_no_py (env : Env)
    (hT : ∀ pt ∈ env.sniffTable, slashOK pt.2)
    (acc : Message × St) (ent : AEntry) (hOK : entryOK ent) :
    isPyError (explodeEntry env acc ent) = false := by
  unfold explodeEntry
  rcases ent with s | kvs | _
  case other => rfl
  case str =>
    dsimp only
    have hE : ∀ t, lookupKey [("content", s)] "type" = some t → t ≠ "" → slashOK t := by
      intro t ht _
      exact Option.noConfusion ht
    obtain ⟨ms, hms⟩ := splitSlash1_ok _ (entryMtype_slash env [("content", s)] hT hE)
    rw [hms, except_bind_ok]
    refine isPyError_bind _ _ ?_ (fun msg => rfl)
    exact isPyError_foldlM_mem _ _
      (fun m kv hm => extraHeaderStep_no_py _ (contentWrap_extras s) m kv hm) _
  case dict =>
    obtain ⟨hE, hH⟩ := hOK
    dsimp only
    obtain ⟨ms, hms⟩ := splitSlash1_ok _ (entryMtype_slash env kvs hT hE)
    rw [hms, except_bind_ok]
    refine isPyError_bind _ _ ?_ (fun msg => rfl)
    exact isPyError_foldlM_mem _ _
      (fun m kv hm => extraHeaderStep_no_py _ hH m kv hm) _

theorem includeURL_no_py (env : Env)
    (recur : Message → Message → St → Res (Message × St)) (once : Bool)
    (u : String) (acc : Message × St)
    (hrec : ∀ b a s, isPyError (recur b a s) = false) :
    isPyError (includeURL env recur once u acc) = false := by
  unfold includeURL
  split
  · rfl
  · dsimp only
    exact hrec _ _ _

theorem includeLine_no_py (env : Env)
    (recur : Message → Message → St → Res (Message × St)) (acc : Message × St)
    (line : String) (hrec : ∀ b a s, isPyError (recur b a s) = false) :
    isPyError (includeLine env recur acc line) = false := by
  unfold includeLine
  split
  · rfl
  · dsimp only
    split
    · split
      · rfl
      · exact includeURL_no_py env recur _ _ acc hrec
    · split
      · split
        · rfl
        · exact includeURL_no_py env recur _ _ acc hrec
      · split
        · rfl
        · exact includeURL_no_py env recur _ _ acc hrec

theorem stepPart_no_py (env : Env)
    (recur : Message → Message → St → Res (Message × St)) (aliased : Bool)
    (part : Message) (acc : Message × Message × St)
    (hT : ∀ pt ∈ env.sniffTable, slashOK pt.2)
    (hD : ∀ s, ∀ ent ∈ env.decodeArchive s, entryOK ent)
    (hrec : ∀ b a s, isPyError (recur b a s) = false) :
    isPyError (stepPart env recur aliased part acc) = false := by
  unfold stepPart
  split
  · rfl
  · dsimp only
    split
    · refine isPyError_bind _ _ ?_ (fun r => rfl)
      unfold doInclude
      exact isPyError_foldlM_mem _ _
        (fun b a ha => includeLine_no_py env recur b a hrec) _
    · split
      · refine isPyError_bind _ _ ?_ (fun r => rfl)
        unfold explodeArchive
        refine isPyError_foldlM_mem _ _ ?_ _
        intro b ent hent
        exact explodeEntry_no_py env hT b ent (hD _ ent hent)
      · rfl

theorem engine_no_py (env : Env)
    (hT : ∀ pt ∈ env.sniffTable, slashOK pt.2)
    (hD : ∀ s, ∀ ent ∈ env.decodeArchive s, entryOK ent) :
    ∀ (fuel : Nat) (call : ECall) (base append : Message) (st : St),
      isPyError (engineF fuel env call base append st) = false := by
  intro fuel
  induction fuel with
  | zero => intro call base append st; rfl
  | succ f ih =>
    intro call base append st
    have hrec : ∀ b a s, isPyError ((engineF f env ECall.pmsg b a s).map
        (fun r => (r.2.1, r.2.2))) = false := by
      intro b a s
      rw [isPyError_map]
      exact ih ECall.pmsg b a s
    cases call with
    | pmsg =>
      simp only [engineF]
      refine isPyError_bind _ _ (stepPart_no_py env _ true base _ hT hD hrec) ?_
      intro acc
      exact ih (ECall.pwalk base.children) acc.1 acc.2.1 acc.2.2
    | pwalk l =>
      cases l with
      | nil => simp only [engineF]; rfl
      | cons m rest =>
        simp only [engineF]
        refine isPyError_bind _ _ (stepPart_no_py env _ false m _ hT hD hrec) ?_
        intro acc
        refine isPyError_bind _ _ (ih (ECall.pwalk m.children) acc.1 acc.2.1 acc.2.2) ?_
        intro acc2
        exact ih (ECall.pwalk rest) acc2.1 acc2.2.1 acc2.2.2

/-- C3 (amended): provided every type in the sniffer's table contains a
slash and every decoded archive entry is well-shaped — a truthy explicit
`type` contains a slash, and an entry with keys beyond
`content`/`filename`/`type` also has a `header` key — no Python exception
escapes `process`: a run either succeeds or (only) exhausts the fuel that
models the source's unbounded include recursion. Without the well-shapedness
proviso, `ValueError`/`KeyError` from `_explode_archive` do escape. -/
theorem C3_no_exception (env : Env) (fuel : Nat) (blob : String) (st : St)
    (hT : ∀ pt ∈ env.sniffTable, slashOK pt.2)
    (hD : ∀ s, ∀ ent ∈ env.decodeArchive s, entryOK ent) :
    isPyError (process env fuel blob st) = false := by
  unfold process
  rw [isPyError_map]
  exact engine_no_py env hT hD fuel ECall.pmsg _ mimeMultipart st

/-- Witness for C3: with the empty-decode environment, a concrete run raises
no Python-level error. -/
theorem C3_no_exception_witness :
    isPyError (process envNoArch 2 "hello" st0) = false :=
  C3_no_exception envNoArch 2 "hello" st0
    (by
      intro pt hm
      have hm2 : pt ∈ sniffTable0 := hm
      fin_cases hm2 <;> decide)
    (by intro s ent h; cases h)

/-! ## The extra-header loop writes the literal `header` field's value -/

theorem Message.withHeaders_self (m : Message) : m.withHeaders m.headers = m := by
  cases m <;> rfl

theorem Message.withHeaders_withHeaders (m : Message) (h1 h2 : List Header) :
    (m.withHeaders h1).withHeaders h2 = m.withHeaders h2 := by
  cases m <;> rfl

theorem extras_fold_eq (kvs : List (String × String)) (hv : String)
    (hh : lookupKey kvs "header" = some hv) :
    ∀ (l : List (String × String)) (m : Message),
      List.foldlM (extraHeaderStep kvs) m l = Except.ok
        (m.withHeaders (m.headers ++
          (l.filter (fun kv =>
            ¬(kv.1 = "content" ∨ kv.1 = "filename" ∨ kv.1 = "type"))).map
              (fun kv => Header.mk kv.1 hv []))) := by
  intro l
  induction l with
  | nil =>
    intro m
    simp only [List.foldlM_nil, List.filter_nil, List.map_nil, List.append_nil,
      Message.withHeaders_self]
    rfl
  | cons kv t ih =>
    intro m
    rw [List.foldlM_cons]
    by_cases hskip : (kv.1 = "content" ∨ kv.1 = "filename" ∨ kv.1 = "type")
    · have hstep : extraHeaderStep kvs m kv = pure m := by
        unfold extraHeaderStep; rw [if_pos hskip]
      rw [hstep, except_bind_pure, ih m]
      simp [List.filter_cons, hskip]
      rw [if_neg (by tauto)]
    · have hstep : extraHeaderStep kvs m kv = pure (m.addHeader kv.1 hv []) := by
        unfold extraHeaderStep; rw [if_neg hskip, hh]
      rw [hstep, except_bind_pure, ih]
      unfold Message.addHeader
      rw [Message.headers_withHeaders, Message.withHeaders_withHeaders]
      simp [List.filter_cons, hskip]
      rw [if_pos (by tauto)]
      simp [List.append_assoc]

/-- C4 (amended): for an archive entry mapping that *does* contain a
`header` key (value `hv`) and whose effective type splits on a slash, the
entry is exploded into an attached part whose headers are those of the base
part followed by one header per extra key — each carrying the literal
`header` field's value `hv`, not the extra key's own value. (Without a
`header` key, an entry with extra keys raises `KeyError`, see the
counterexample.) -/
theorem C4_extra_headers (env : Env) (append : Message) (st : St)
    (kvs : List (String × String)) (hv : String) (ms : String × String)
    (hh : lookupKey kvs "header" = some hv)
    (hsplit : splitSlash1 (entryMtype env kvs) = Except.ok ms) :
    explodeEntry env (append, st) (.dict kvs) = Except.ok
      (attachPart append
        ((mkArchivePart kvs ms).withHeaders ((mkArchivePart kvs ms).headers ++
          (kvs.filter (fun kv =>
            ¬(kv.1 = "content" ∨ kv.1 = "filename" ∨ kv.1 = "type"))).map
              (fun kv => Header.mk kv.1 hv []))) st) := by
  unfold explodeEntry
  dsimp only
  rw [hsplit, except_bind_ok, extras_fold_eq kvs hv hh kvs (mkArchivePart kvs ms),
    except_bind_ok]
  rfl

/-- Witness for C4: a concrete entry with two extra keys (`x-one`, `x-two`)
whose own values `v1`/`v2` are discarded in favour of the `header` field's
value `HV` on both added headers. -/
theorem C4_extra_headers_witness :
    explodeEntry env0 (mimeMultipart, st0)
      (.dict [("content", "a"), ("header", "HV"), ("x-one", "v1"), ("x-two", "v2")])
      = Except.ok
      (attachPart mimeMultipart
        ((mkArchivePart
            [("content", "a"), ("header", "HV"), ("x-one", "v1"), ("x-two", "v2")]
            ("text", "cloud-config")).withHeaders
          ((mkArchivePart
            [("content", "a"), ("header", "HV"), ("x-one", "v1"), ("x-two", "v2")]
            ("text", "cloud-config")).headers ++
          (([("content", "a"), ("header", "HV"), ("x-one", "v1"),
             ("x-two", "v2")].filter (fun kv =>
            ¬(kv.1 = "content" ∨ kv.1 = "filename" ∨ kv.1 = "type"))).map
              (fun kv => Header.mk kv.1 "HV" [])))) st0) :=
  C4_extra_headers env0 mimeMultipart st0
    [("content", "a"), ("header", "HV"), ("x-one", "v1"), ("x-two", "v2")]
    "HV" ("text", "cloud-config") rfl rfl

/-- C8: exploding the archive `["plain text", {content: "a", filename:
"f.txt"}, 42]` attaches exactly two parts: the bare string is wrapped as a
content-only entry (type defaulting to `text/cloud-config`) and receives the
synthesized filename `part-001`, the mapping entry keeps `f.txt`, and the
non-string non-mapping entry is skipped silently. -/
theorem C8_archive_entries :
    process env0 3 "#cloud-config-archive c8" st0 = Except.ok
      (Message.container
        [{ name := "Content-Type", value := "multipart/mixed", params := [] },
         { name := "MIME-Version", value := "1.0", params := [] },
         { name := "Number-Attachments", value := "2", params := [] }]
        [Message.leaf
          [{ name := "Content-Type", value := "text/cloud-config",
             params := [("charset", "us-ascii")] },
           { name := "MIME-Version", value := "1.0", params := [] },
           { name := "Content-Disposition", value := "attachment",
             params := [("filename", "part-001")] }] "plain text",
         Message.leaf
          [{ name := "Content-Type", value := "text/cloud-config",
             params := [("charset", "us-ascii")] },
           { name := "MIME-Version", value := "1.0", params := [] },
           { name := "Content-Disposition", value := "attachment",
             params := [("filename", "f.txt")] }] "a"],
       { fs := [], fetched := [], synth := ["part-001"] }) ∧
    (Message.leaf
      [{ name := "Content-Type", value := "text/cloud-config",
         params := [("charset", "us-ascii")] },
       { name := "MIME-Version", value := "1.0", params := [] },
       { name := "Content-Disposition", value := "attachment",
         params := [("filename", "part-001")] }] "plain text").getFilename
      = some "part-001" ∧
    (Message.leaf
      [{ name := "Content-Type", value := "text/cloud-config",
         params := [("charset", "us-ascii")] },
       { name := "MIME-Version", value := "1.0", params := [] },
       { name := "Content-Disposition", value := "attachment",
         params := [("filename", "f.txt")] }] "a").getFilename = some "f.txt" :=
  ⟨rfl, rfl, rfl⟩

/-! ## Flat documents round-trip (C9) -/

theorem engineF_pmsg_succ (f : Nat) (env : Env) (base append : Message)
    (st : St) :
    engineF (f + 1) env ECall.pmsg base append st = (do
      let acc ← stepPart env (fun b a s =>
        (engineF f env ECall.pmsg b a s).map (fun r => (r.2.1, r.2.2)))
        true base (base, append, st)
      engineF f env (ECall.pwalk base.children) acc.1 acc.2.1 acc.2.2) := rfl

theorem engineF_pwalk_nil (f : Nat) (env : Env) (base append : Message)
    (st : St) :
    engineF (f + 1) env (ECall.pwalk []) base append st
      = pure (base, append, st) := rfl

theorem engineF_pwalk_cons (f : Nat) (env : Env) (m : Message)
    (rest : List Message) (base append : Message) (st : St) :
    engineF (f + 1) env (ECall.pwalk (m :: rest)) base append st = (do
      let acc ← stepPart env (fun b a s =>
        (engineF f env ECall.pmsg b a s).map (fun r => (r.2.1, r.2.2)))
        false m (base, append, st)
      let acc ← engineF f env (ECall.pwalk m.children) acc.1 acc.2.1 acc.2.2
      engineF f env (ECall.pwalk rest) acc.1 acc.2.1 acc.2.2) := rfl

theorem stepPart_multipart (env : Env)
    (recur : Message → Message → St → Res (Message × St)) (aliased : Bool)
    (part : Message) (acc : Message × Message × St)
    (h : part.getContentMaintype = "multipart") :
    stepPart env recur aliased part acc = pure acc := by
  unfold stepPart
  rw [if_pos h]

theorem stepPart_plain (env : Env)
    (recur : Message → Message → St → Res (Message × St)) (part b a : Message)
    (s : St) (hmt : ¬ part.getContentMaintype = "multipart")
    (hinc : INCLUDE_TYPES.contains (resolvedCtype env part) = false)
    (harc : ARCHIVE_TYPES.contains (resolvedCtype env part) = false) :
    stepPart env recur false part (b, a, s) = Except.ok
      (stampContentType b (resolvedCtype env part),
       (attachPart a part s).1, (attachPart a part s).2) := by
  unfold stepPart
  rw [if_neg hmt]
  dsimp only
  rw [hinc, harc]
  simp only [Bool.false_eq_true, if_false]
  rfl

theorem attach_fold_spec :
    ∀ (l : List Message) (c : Message) (st : St), Inv c st →
      Inv (l.foldl (fun (acc : Message × St) m => attachPart acc.1 m acc.2) (c, st)).1
          (l.foldl (fun (acc : Message × St) m => attachPart acc.1 m acc.2) (c, st)).2 ∧
      (l.foldl (fun (acc : Message × St) m =>
          attachPart acc.1 m acc.2) (c, st)).1.children.map Message.payloadDecoded
        = c.children.map Message.payloadDecoded ++ l.map Message.payloadDecoded := by
  intro l
  induction l with
  | nil => intro c st hc; exact ⟨hc, by simp⟩
  | cons m rest ih =>
    intro c st hc
    rw [List.foldl_cons]
    dsimp only
    obtain ⟨hinv, p', hch, hpd⟩ := attachPart_spec c m st hc
    obtain ⟨ih1, ih2⟩ := ih (attachPart c m st).1 (attachPart c m st).2 hinv
    rw [show attachPart c m st
      = ((attachPart c m st).1, (attachPart c m st).2) from Prod.mk.eta.symm]
    refine ⟨ih1, ?_⟩
    rw [ih2, hch]
    simp [hpd, List.map_append, List.append_assoc]

theorem pwalk_plain (env : Env) :
    ∀ (l : List Message) (fuel : Nat) (b a : Message) (s : St),
      (∀ m ∈ l, m.children = [] ∧ ¬ m.getContentMaintype = "multipart" ∧
        INCLUDE_TYPES.contains (resolvedCtype env m) = false ∧
        ARCHIVE_TYPES.contains (resolvedCtype env m) = false) →
      l.length + 1 ≤ fuel →
      ∃ b', engineF fuel env (ECall.pwalk l) b a s = Except.ok
        (b', (l.foldl (fun (acc : Message × St) m =>
                attachPart acc.1 m acc.2) (a, s)).1,
             (l.foldl (fun (acc : Message × St) m =>
                attachPart acc.1 m acc.2) (a, s)).2) := by
  intro l
  induction l with
  | nil =>
    intro fuel b a s _ hf
    match fuel, hf with
    | f + 1, _ => exact ⟨b, by rw [engineF_pwalk_nil]; rfl⟩
  | cons m rest ih =>
    intro fuel b a s hl hf
    match fuel, hf with
    | f + 1, hf =>
      obtain ⟨hch, hmt, hinc, harc⟩ := hl m (List.mem_cons_self m rest)
      rw [engineF_pwalk_cons]
      rw [stepPart_plain env _ m b a s hmt hinc harc, except_bind_ok]
      dsimp only
      rw [hch]
      have hf1 : rest.length + 1 ≤ f := by
        simp only [List.length_cons] at hf
        omega
      match f, hf1 with
      | g + 1, hf1 =>
        rw [engineF_pwalk_nil, except_bind_pure]
        obtain ⟨b', heq⟩ := ih (g + 1)
          (stampContentType b (resolvedCtype env m))
          (attachPart a m s).1 (attachPart a m s).2
          (fun m2 hm2 => hl m2 (List.mem_cons_of_mem m hm2)) hf1
        refine ⟨b', ?_⟩
        rw [heq, List.foldl_cons]

/-- C9: processing an already-flat multipart document with three plain-text
leaf parts (none of which resolves to an include or archive kind) yields an
output container with exactly three attached parts, in the original order,
with their payload content unaltered. -/
theorem C9_flat_roundtrip (env : Env) (blob : String) (st : St)
    (hst hs1 hs2 hs3 : List Header) (p1 p2 p3 : String)
    (hsy : st.synth = [])
    (hparse : env.parse blob = .container hst
      [.leaf hs1 p1, .leaf hs2 p2, .leaf hs3 p3])
    (hmt : (Message.container hst
      [.leaf hs1 p1, .leaf hs2 p2, .leaf hs3 p3]).getContentMaintype = "multipart")
    (hys : ∀ m ∈ ([.leaf hs1 p1, .leaf hs2 p2, .leaf hs3 p3] : List Message),
      ¬ m.getContentMaintype = "multipart" ∧
      INCLUDE_TYPES.contains (resolvedCtype env m) = false ∧
      ARCHIVE_TYPES.contains (resolvedCtype env m) = false) :
    (process env 5 blob st).map (fun r => r.1.children.map Message.payloadDecoded)
      = Except.ok [p1, p2, p3] := by
  unfold process
  rw [hparse]
  rw [show (5 : Nat) = 4 + 1 from rfl, engineF_pmsg_succ]
  rw [stepPart_multipart env _ true _ _ hmt, except_bind_pure]
  rw [show (Message.container hst
      [Message.leaf hs1 p1, Message.leaf hs2 p2, Message.leaf hs3 p3]).children
    = [Message.leaf hs1 p1, Message.leaf hs2 p2, Message.leaf hs3 p3] from rfl]
  obtain ⟨b', heq⟩ := pwalk_plain env
    [.leaf hs1 p1, .leaf hs2 p2, .leaf hs3 p3] 4
    (Message.container hst [.leaf hs1 p1, .leaf hs2 p2, .leaf hs3 p3])
    mimeMultipart st
    (by
      intro m hm
      refine ⟨?_, (hys m hm).1, (hys m hm).2.1, (hys m hm).2.2⟩
      simp only [List.mem_cons, List.mem_singleton] at hm
      rcases hm with rfl | rfl | rfl | h
      · rfl
      · rfl
      · rfl
      · cases h)
    (by simp)
  rw [heq]
  obtain ⟨-, hmap⟩ := attach_fold_spec
    [.leaf hs1 p1, .leaf hs2 p2, .leaf hs3 p3] mimeMultipart st (Inv_init st hsy)
  simp only [Except.map]
  rw [hmap]
  rfl

/-- Witness for C9: a concrete flat three-part document. -/
theorem C9_flat_roundtrip_witness :
    (process env0 5 "multi-flat3" st0).map
      (fun r => r.1.children.map Message.payloadDecoded)
      = Except.ok ["one", "two", "three"] :=
  C9_flat_roundtrip env0 "multi-flat3" st0
    [{ name := "Content-Type", value := "multipart/mixed", params := [] }]
    [{ name := "Content-Type", value := "text/plain", params := [] }]
    [{ name := "Content-Type", value := "text/plain", params := [] }]
    [{ name := "Content-Type", value := "text/plain", params := [] }]
    "one" "two" "three" rfl rfl (by decide)
    (by
      intro m hm
      simp only [List.mem_cons, List.mem_singleton] at hm
      rcases hm with rfl | rfl | rfl | h
      · exact ⟨by decide, by decide, by decide⟩
      · exact ⟨by decide, by decide, by decide⟩
      · exact ⟨by decide, by decide, by decide⟩
      · cases h)

/-! ## Failed fetches degrade to empty content (C6) -/

/-- A plain `#include`-marked line whose fetch returns a failing status
resolves to recursing on the empty string: the fetch is logged, nothing is
persisted, and the content is degraded to `""`. -/
theorem includeLine_failed_fetch (env : Env)
    (recur : Message → Message → St → Res (Message × St))
    (acc : Message × St) (line u c : String) (code : Int)
    (hnb : ¬(line = "#include" ∨ line = "#include-once"))
    (hm1 : startsWithS line "#include-once" = false)
    (hm2 : startsWithS line "#include" = true)
    (hcom : startsWithS (trimLeftS (dropS line 8)) "#" = false)
    (hu : trimS (trimLeftS (dropS line 8)) = u)
    (hune : ¬ u = "")
    (hfetch : env.fetch u = (c, code))
    (hfail : env.okHttp code = false) :
    includeLine env recur acc line =
      recur (env.parse "") acc.1
        { acc.2 with fetched := acc.2.fetched ++ [u] } := by
  unfold includeLine
  rw [if_neg hnb]
  dsimp only
  rw [hm1]
  simp only [Bool.false_eq_true, if_false]
  rw [hm2]
  simp only [if_true]
  rw [hcom]
  simp only [Bool.false_eq_true, if_false]
  rw [hu]
  unfold includeURL
  rw [if_neg hune]
  dsimp only
  simp only [Bool.false_and, Bool.false_eq_true, if_false]
  rw [hfetch]
  dsimp only
  rw [hfail]
  simp only [Bool.false_eq_true, if_false]

/-- C6 (amended): a plain `#include` line whose URL fetch fails is swallowed:
the fetched content is replaced by the empty string (which is re-parsed and
expanded like any include result — producing an empty not-multipart
attachment under the spec's bare-string parser, not zero attachments), and
processing continues with exactly the remaining lines. -/
theorem C6_failed_fetch_continues (env : Env)
    (recur : Message → Message → St → Res (Message × St))
    (append : Message) (st : St) (content line u c : String) (code : Int)
    (rest : List String) (acc' : Message × St)
    (hlines : pySplitlines content = line :: rest)
    (hnb : ¬(line = "#include" ∨ line = "#include-once"))
    (hm1 : startsWithS line "#include-once" = false)
    (hm2 : startsWithS line "#include" = true)
    (hcom : startsWithS (trimLeftS (dropS line 8)) "#" = false)
    (hu : trimS (trimLeftS (dropS line 8)) = u)
    (hune : ¬ u = "")
    (hfetch : env.fetch u = (c, code))
    (hfail : env.okHttp code = false)
    (hrec : recur (env.parse "") append { st with fetched := st.fetched ++ [u] }
      = Except.ok acc') :
    doInclude env recur content append st =
      rest.foldlM (includeLine env recur) acc' := by
  unfold doInclude
  rw [hlines, List.foldlM_cons,
    includeLine_failed_fetch env recur (append, st) line u c code
      hnb hm1 hm2 hcom hu hune hfetch hfail]
  dsimp only
  rw [hrec, except_bind_ok]

/-- Witness for C6: the failing URL `http://bad` under `env0`; the line
degrades to empty content which expands to one empty attachment, and the
(empty) remaining-line list is processed afterwards. -/
theorem C6_failed_fetch_continues_witness :
    doInclude env0
      (fun b a s => (engineF 2 env0 ECall.pmsg b a s).map (fun r => (r.2.1, r.2.2)))
      "#include http://bad" mimeMultipart st0 =
    ([] : List String).foldlM (includeLine env0
      (fun b a s => (engineF 2 env0 ECall.pmsg b a s).map (fun r => (r.2.1, r.2.2))))
      (Message.container
        [{ name := "Content-Type", value := "multipart/mixed", params := [] },
         { name := "MIME-Version", value := "1.0", params := [] },
         { name := "Number-Attachments", value := "1", params := [] }]
        [Message.leaf
          [{ name := "Content-Type", value := "text/x-not-multipart", params := [] },
           { name := "Content-Disposition", value := "attachment",
             params := [("filename", "part-001")] }] ""],
       { fs := [], fetched := ["http://bad"], synth := ["part-001"] }) :=
  C6_failed_fetch_continues env0 _ mimeMultipart st0
    "#include http://bad" "#include http://bad" "http://bad" "" 404 [] _
    rfl (by decide) rfl rfl rfl rfl (by decide) rfl rfl rfl

/-- C6 (counterexample): the claim says a failed `#include` fetch produces
*no attachment* from that line; in fact the empty degraded content is
re-parsed (a bare empty not-multipart document) and attached, so the line
yields exactly one attachment with empty payload. -/
theorem C6_counterexample :
    process env0 4 "#include http://bad" st0 = Except.ok
      (Message.container
        [{ name := "Content-Type", value := "multipart/mixed", params := [] },
         { name := "MIME-Version", value := "1.0", params := [] },
         { name := "Number-Attachments", value := "1", params := [] }]
        [Message.leaf
          [{ name := "Content-Type", value := "text/x-not-multipart", params := [] },
           { name := "Content-Disposition", value := "attachment",
             params := [("filename", "part-001")] }] ""],
       { fs := [], fetched := ["http://bad"], synth := ["part-001"] }) ∧
    (Message.leaf
      [{ name := "Content-Type", value := "text/x-not-multipart", params := [] },
       { name := "Content-Disposition", value := "attachment",
         params := [("filename", "part-001")] }] "").payloadDecoded = "" :=
  ⟨rfl, rfl⟩

/-! ## Include-once caching (C5) -/

/-- A freshly written cache file exists. -/
theorem isfile_writeFile_self (fs : FSys) (p c : String) (m : Nat) :
    isfile (writeFile fs p c m) p = true := by
  unfold isfile writeFile
  simp [List.any_append]

/-- Loading a freshly written cache file gives back the written content. -/
theorem loadFile_writeFile_self (fs : FSys) (p c : String) (m : Nat) :
    loadFile (writeFile fs p c m) p = c := by
  unfold loadFile writeFile
  have h1 : (fs.filter (fun e => ¬ e.1 = p)).find? (fun e => e.1 = p) = none := by
    rw [List.find?_eq_none]
    intro x hx
    have hm := List.of_mem_filter hx
    simp at hm ⊢
    exact hm
  rw [List.find?_append, h1]
  simp [List.find?]

/-- C5: include-once caching. For an `#include-once`-marked line naming URL
`u` whose fetch succeeds: (1) when the hash-derived cache file already
exists, its content is loaded from disk and the state — including the fetch
log — is untouched, so no network fetch occurs; (2) when it does not exist,
the URL is fetched (logged once) and the fetched content is persisted at the
cache path with mode `0o600` (384); (3) the persisted file exists and loads
back to exactly the fetched content, so a second run over the same line is
a cache hit that re-parses the very same content `c` as the first run —
identical expanded content with no network fetch. -/
theorem C5_include_once (env : Env)
    (recur : Message → Message → St → Res (Message × St))
    (line u c : String) (code : Int)
    (hnb : ¬(line = "#include" ∨ line = "#include-once"))
    (hm1 : startsWithS line "#include-once" = true)
    (hcom : startsWithS (trimLeftS (dropS line 13)) "#" = false)
    (hu : trimS (trimLeftS (dropS line 13)) = u)
    (hune : ¬ u = "")
    (hfetch : env.fetch u = (c, code))
    (hok : env.okHttp code = true) :
    (∀ a st, isfile st.fs (includeOnceFilename env u) = true →
       includeLine env recur (a, st) line =
         recur (env.parse (loadFile st.fs (includeOnceFilename env u))) a st) ∧
    (∀ a st, isfile st.fs (includeOnceFilename env u) = false →
       includeLine env recur (a, st) line =
         recur (env.parse c) a
           { st with fs := writeFile st.fs (includeOnceFilename env u) c 384,
                     fetched := st.fetched ++ [u] }) ∧
    (∀ fs : FSys,
       isfile (writeFile fs (includeOnceFilename env u) c 384)
         (includeOnceFilename env u) = true ∧
       loadFile (writeFile fs (includeOnceFilename env u) c 384)
         (includeOnceFilename env u) = c) := by
  refine ⟨?_, ?_, ?_⟩
  · intro a st hhit
    unfold includeLine
    rw [if_neg hnb]
    dsimp only
    rw [hm1]
    simp only [if_true]
    rw [hcom]
    simp only [Bool.false_eq_true, if_false]
    rw [hu]
    unfold includeURL
    rw [if_neg hune]
    dsimp only
    simp only [Bool.true_and]
    rw [hhit]
    simp only [if_true]
  · intro a st hmiss
    unfold includeLine
    rw [if_neg hnb]
    dsimp only
    rw [hm1]
    simp only [if_true]
    rw [hcom]
    simp only [Bool.false_eq_true, if_false]
    rw [hu]
    unfold includeURL
    rw [if_neg hune]
    dsimp only
    simp only [Bool.true_and]
    rw [hmiss]
    simp only [Bool.false_eq_true, if_false]
    rw [hfetch]
    dsimp only
    rw [hok]
    simp only [Bool.true_and, if_true]
  · intro fs
    exact ⟨isfile_writeFile_self fs _ c 384, loadFile_writeFile_self fs _ c 384⟩

/-- Witness for C5 at `env0` with the line `#include-once http://good`
(fetched content `"hello"`, status 200): the cache-miss run fetches once and
persists with mode 384, the persisted file loads back to `"hello"`, and a
run over the state left behind is a cache hit that parses the loaded content
with the state untouched. -/
theorem C5_include_once_witness :
    (includeLine env0
      (fun b a s => (engineF 2 env0 ECall.pmsg b a s).map (fun r => (r.2.1, r.2.2)))
      (mimeMultipart, st0) "#include-once http://good" =
      (fun b a s => (engineF 2 env0 ECall.pmsg b a s).map (fun r => (r.2.1, r.2.2)))
        (env0.parse "hello") mimeMultipart
        { st0 with
          fs := writeFile st0.fs (includeOnceFilename env0 "http://good") "hello" 384,
          fetched := st0.fetched ++ ["http://good"] }) ∧
    (isfile (writeFile st0.fs (includeOnceFilename env0 "http://good") "hello" 384)
       (includeOnceFilename env0 "http://good") = true ∧
     loadFile (writeFile st0.fs (includeOnceFilename env0 "http://good") "hello" 384)
       (includeOnceFilename env0 "http://good") = "hello") ∧
    (includeLine env0
      (fun b a s => (engineF 2 env0 ECall.pmsg b a s).map (fun r => (r.2.1, r.2.2)))
      (mimeMultipart,
       { fs := writeFile st0.fs (includeOnceFilename env0 "http://good") "hello" 384,
         fetched := [], synth := [] }) "#include-once http://good" =
      (fun b a s => (engineF 2 env0 ECall.pmsg b a s).map (fun r => (r.2.1, r.2.2)))
        (env0.parse (loadFile
          (writeFile st0.fs (includeOnceFilename env0 "http://good") "hello" 384)
          (includeOnceFilename env0 "http://good")))
        mimeMultipart
        { fs := writeFile st0.fs (includeOnceFilename env0 "http://good") "hello" 384,
          fetched := [], synth := [] }) :=
  ⟨(C5_include_once env0
      (fun b a s => (engineF 2 env0 ECall.pmsg b a s).map (fun r => (r.2.1, r.2.2)))
      "#include-once http://good" "http://good" "hello" 200
      (by decide) rfl rfl rfl (by decide) rfl rfl).2.1 mimeMultipart st0 (by decide),
   (C5_include_once env0
      (fun b a s => (engineF 2 env0 ECall.pmsg b a s).map (fun r => (r.2.1, r.2.2)))
      "#include-once http://good" "http://good" "hello" 200
      (by decide) rfl rfl rfl (by decide) rfl rfl).2.2 st0.fs,
   (C5_include_once env0
      (fun b a s => (engineF 2 env0 ECall.pmsg b a s).map (fun r => (r.2.1, r.2.2)))
      "#include-once http://good" "http://good" "hello" 200
      (by decide) rfl rfl rfl (by decide) rfl rfl).1 mimeMultipart
     { fs := writeFile st0.fs (includeOnceFilename env0 "http://good") "hello" 384,
       fetched := [], synth := [] } (by decide)⟩

end CloudInit
